import Mathlib

/-!
Verification development for the pysas repository (an orchestration layer
around the XMM-Newton SAS toolkit).  The Python modules under study are
shallowly embedded as pure Lean functions over an explicit world state
(current directory, environment variables, directories and files), with
external processes (cifbuild, odfingest, gpg, wget, astroquery downloads,
tar extraction) modelled through an oracle supplying their exit codes and
the files they create.  Exceptions, `sys.exit` calls and uncaught Python
runtime errors (IndexError, NameError, TypeError, ValueError) are modelled
as error outcomes.
-/

/-! ## Python strings and `str.split` on `os.pathsep`

`configutils.add_environ_variable` (and its identical copy in
`initializesas.py`) manipulates environment values with
`environ_var.split(os.pathsep)` and `os.pathsep.join(...)`.  We embed a
Python string as `List Char` and translate `split` / `join` for the
single-character separator `os.pathsep = ':'` (the POSIX platforms this
repository targets). -/

/-- `os.pathsep` on POSIX. -/
def pathsep : Char := ':'

/-- Python `s.split(sep)` for a single-character separator: `""` gives
`[""]`, and a separator occurrence always opens a new chunk. -/
def splitC (sep : Char) : List Char → List (List Char)
  | [] => [[]]
  | c :: cs =>
    if c = sep then [] :: splitC sep cs
    else
      match splitC sep cs with
      | [] => [[c]]
      | g :: gs => (c :: g) :: gs

/-- Python `sep.join(parts)` for a single-character separator. -/
def joinC (sep : Char) : List (List Char) → List Char
  | [] => []
  | [g] => g
  | g :: gs => g ++ sep :: joinC sep gs

theorem splitC_ne_nil (sep : Char) (l : List Char) : splitC sep l ≠ [] := by
  cases l with
  | nil => simp [splitC]
  | cons c cs =>
    simp only [splitC]
    split
    · simp
    · cases h : splitC sep cs <;> simp

/-- `join` is a left inverse of `split`: rejoining the split of a string
recovers the string (this is why the `value in splitpath` branch of
`add_environ_variable` leaves the variable unchanged). -/
theorem joinC_splitC (sep : Char) (l : List Char) : joinC sep (splitC sep l) = l := by
  induction l with
  | nil => rfl
  | cons c cs ih =>
    simp only [splitC]
    by_cases hc : c = sep
    · subst hc
      simp only [if_pos rfl]
      cases h : splitC c cs with
      | nil => exact absurd h (splitC_ne_nil c cs)
      | cons g gs =>
        rw [h] at ih
        simp [joinC, ih]
    · simp only [if_neg hc]
      cases h : splitC sep cs with
      | nil => exact absurd h (splitC_ne_nil sep cs)
      | cons g gs =>
        rw [h] at ih
        cases gs with
        | nil => simp_all [joinC]
        | cons g2 gs2 => simp_all [joinC]

/-- No chunk produced by `split` contains the separator. -/
theorem not_mem_of_mem_splitC (sep : Char) (l : List Char) :
    ∀ g ∈ splitC sep l, sep ∉ g := by
  induction l with
  | nil => intro g hg; simp [splitC] at hg; simp [hg]
  | cons c cs ih =>
    intro g hg
    simp only [splitC] at hg
    by_cases hc : c = sep
    · rw [if_pos hc] at hg
      rcases List.mem_cons.mp hg with h | h
      · simp [h]
      · exact ih g h
    · rw [if_neg hc] at hg
      cases h : splitC sep cs with
      | nil => exact absurd h (splitC_ne_nil sep cs)
      | cons g0 gs0 =>
        rw [h] at hg
        rcases List.mem_cons.mp hg with h2 | h2
        · subst h2
          intro hmem
          rcases List.mem_cons.mp hmem with h3 | h3
          · exact hc h3.symm
          · exact ih g0 (by simp [h]) h3
        · exact ih g (by simp [h, h2])

/-- A string without the separator splits into the single chunk itself. -/
theorem splitC_of_not_mem (sep : Char) (l : List Char) (h : sep ∉ l) :
    splitC sep l = [l] := by
  induction l with
  | nil => rfl
  | cons c cs ih =>
    simp only [splitC]
    have hc : ¬ c = sep := by
      intro hq; exact h (by simp [hq])
    rw [if_neg hc, ih (fun hm => h (List.mem_cons_of_mem c hm))]

/-- Splitting a string that starts with a separator-free chunk followed by
the separator peels off that chunk. -/
theorem splitC_append_sep (sep : Char) (g rest : List Char) (hg : sep ∉ g) :
    splitC sep (g ++ sep :: rest) = g :: splitC sep rest := by
  induction g with
  | nil => simp [splitC]
  | cons c cg ih =>
    have hc : ¬ c = sep := by
      intro hq; exact hg (by simp [hq])
    have hcg : sep ∉ cg := fun hm => hg (List.mem_cons_of_mem c hm)
    simp only [List.cons_append, splitC, if_neg hc]
    rw [List.append_eq, ih hcg]

/-- Splitting after joining separator-free chunks recovers the chunks. -/
theorem splitC_joinC (sep : Char) (gs : List (List Char)) (hgs : gs ≠ [])
    (h : ∀ g ∈ gs, sep ∉ g) : splitC sep (joinC sep gs) = gs := by
  induction gs with
  | nil => exact absurd rfl hgs
  | cons g rest ih =>
    cases rest with
    | nil =>
      simp only [joinC]
      exact splitC_of_not_mem sep g (h g (by simp))
    | cons g2 rest2 =>
      have hg : sep ∉ g := h g (by simp)
      have hrest : splitC sep (joinC sep (g2 :: rest2)) = g2 :: rest2 :=
        ih (by simp) (fun x hx => h x (List.mem_cons_of_mem g hx))
      simp only [joinC]
      rw [splitC_append_sep sep g _ hg, hrest]

/-! ## `add_environ_variable` (configutils.py lines 58-99, and the identical
copy in initializesas.py lines 62-103)

The environment is an association list from variable names to Python-string
values.  `os.environ.get` is the first association for the key;
assignment replaces it. -/

/-- An environment: variable name to value (`List Char` Python string). -/
abbrev PyEnv := List (String × List Char)

/-- `os.environ.get(variable)`. -/
def envGet : PyEnv → String → Option (List Char)
  | [], _ => none
  | q :: rest, k => if q.1 = k then some q.2 else envGet rest k

/-- Drop every association for a key. -/
def envDel : PyEnv → String → PyEnv
  | [], _ => []
  | q :: rest, k => if q.1 = k then envDel rest k else q :: envDel rest k

/-- `os.environ[variable] = value`; assignment is modelled as
reinsertion at the front, which is `envGet`-equivalent to a dict update. -/
def envPut (env : PyEnv) (varName : String) (value : List Char) : PyEnv :=
  (varName, value) :: envDel env varName

/-- The body of the set-variable branch of `add_environ_variable`: split
the current value on `os.pathsep`, insert `value` at the front
(`prepend=True`) or the back unless already present, and rejoin. -/
def updatedValue (value cur : List Char) (prepend : Bool) : List Char :=
  let splitpath := splitC pathsep cur
  if value ∈ splitpath then joinC pathsep splitpath
  else if prepend then joinC pathsep (value :: splitpath)
  else joinC pathsep (splitpath ++ [value])

/-- One iteration of the `for value in listvalue` loop of
`add_environ_variable`: get the variable; if unset (or empty, which Python
truthiness treats the same) assign `value`; otherwise assign the
rejoined, possibly extended component list. -/
def add_environ_variable (env : PyEnv) (varName : String) (value : List Char)
    (prepend : Bool) : PyEnv :=
  match envGet env varName with
  | none => envPut env varName value
  | some cur =>
    if cur = [] then envPut env varName value
    else envPut env varName (updatedValue value cur prepend)

/-- The source function takes a string or a list of strings and loops; the
string case is the singleton loop. -/
def add_environ_variable_list (env : PyEnv) (varName : String)
    (values : List (List Char)) (prepend : Bool) : PyEnv :=
  values.foldl (fun e v => add_environ_variable e varName v prepend) env

theorem envGet_envPut (env : PyEnv) (varName : String) (value : List Char) :
    envGet (envPut env varName value) varName = some value := by
  simp [envGet, envPut]

theorem envGet_envDel_ne (env : PyEnv) (k k2 : String) (h : k2 ≠ k) :
    envGet (envDel env k) k2 = envGet env k2 := by
  induction env with
  | nil => rfl
  | cons p rest ih =>
    by_cases hp : p.1 = k
    · have h2 : ¬ p.1 = k2 := by rw [hp]; exact Ne.symm h
      simp [envDel, envGet, hp, h2, ih, h, Ne.symm h]
    · by_cases hq : p.1 = k2
      · simp [envDel, envGet, hp, hq, h, Ne.symm h]
      · simp [envDel, envGet, hp, hq, ih, h, Ne.symm h]

theorem envGet_envPut_ne (env : PyEnv) (k k2 : String) (value : List Char)
    (h : k2 ≠ k) : envGet (envPut env k value) k2 = envGet env k2 := by
  simp only [envPut, envGet, if_neg (Ne.symm h)]
  exact envGet_envDel_ne env k k2 h

theorem envDel_envDel (env : PyEnv) (k : String) :
    envDel (envDel env k) k = envDel env k := by
  induction env with
  | nil => rfl
  | cons p rest ih =>
    by_cases hp : p.1 = k
    · simp [envDel, hp, ih]
    · simp [envDel, hp, ih]

theorem envPut_envPut (env : PyEnv) (varName : String) (v1 v2 : List Char) :
    envPut (envPut env varName v1) varName v2 = envPut env varName v2 := by
  simp [envPut, envDel, envDel_envDel]

/-- A join of at least two chunks contains the separator, hence is nonempty. -/
theorem joinC_ne_nil_of_two (sep : Char) (g g2 : List Char) (rest : List (List Char)) :
    joinC sep (g :: g2 :: rest) ≠ [] := by
  cases g with
  | nil => simp [joinC]
  | cons c cg => simp [joinC]

/-- C7 counterexample: `add_environ_variable` is not idempotent when the
value itself contains `os.pathsep`.  Starting from an environment where
`V` is unset, adding the value `"a:b"` once sets `V` to `"a:b"`; adding it
a second time splits `"a:b"` into `["a", "b"]`, does not find `"a:b"`
among the components, and prepends it again, yielding `"a:b:a:b"`. -/
theorem add_environ_variable_not_idempotent :
    add_environ_variable
        (add_environ_variable [] "V" ['a', ':', 'b'] true) "V" ['a', ':', 'b'] true
      ≠ add_environ_variable [] "V" ['a', ':', 'b'] true := by
  decide

theorem add_eq_of_none (env : PyEnv) (v : String) (value : List Char)
    (p : Bool) (h : envGet env v = none) :
    add_environ_variable env v value p = envPut env v value := by
  simp [add_environ_variable, h]

theorem add_eq_of_empty (env : PyEnv) (v : String) (value : List Char)
    (p : Bool) (h : envGet env v = some []) :
    add_environ_variable env v value p = envPut env v value := by
  simp [add_environ_variable, h]

theorem add_eq_of_some (env : PyEnv) (v : String) (value : List Char)
    (p : Bool) (cur : List Char) (h : envGet env v = some cur) (hne : cur ≠ []) :
    add_environ_variable env v value p = envPut env v (updatedValue value cur p) := by
  simp [add_environ_variable, h, hne]

theorem updatedValue_of_mem (value cur : List Char) (p : Bool)
    (h : value ∈ splitC pathsep cur) : updatedValue value cur p = cur := by
  simp [updatedValue, h, joinC_splitC]

theorem splitC_updatedValue_of_not_mem (value cur : List Char) (p : Bool)
    (hsep : pathsep ∉ value) (h : value ∉ splitC pathsep cur) :
    splitC pathsep (updatedValue value cur p) =
      if p then value :: splitC pathsep cur else splitC pathsep cur ++ [value] := by
  cases p with
  | true =>
    simp only [updatedValue, if_neg h, if_pos rfl]
    refine splitC_joinC pathsep _ (by simp) ?_
    intro g hg
    rcases List.mem_cons.mp hg with h2 | h2
    · subst h2; exact hsep
    · exact not_mem_of_mem_splitC pathsep cur g h2
  | false =>
    simp only [updatedValue, if_neg h, Bool.false_eq_true, if_false]
    refine splitC_joinC pathsep _ (by simp [splitC_ne_nil]) ?_
    intro g hg
    rcases List.mem_append.mp hg with h2 | h2
    · exact not_mem_of_mem_splitC pathsep cur g h2
    · rw [List.mem_singleton.mp h2]; exact hsep

theorem updatedValue_ne_nil (value cur : List Char) (p : Bool)
    (hne : cur ≠ []) : updatedValue value cur p ≠ [] := by
  by_cases hm : value ∈ splitC pathsep cur
  · rw [updatedValue_of_mem value cur p hm]; exact hne
  · cases hq : splitC pathsep cur with
    | nil => exact absurd hq (splitC_ne_nil pathsep cur)
    | cons g gs =>
      cases p with
      | true =>
        simp only [updatedValue, if_neg hm, if_pos rfl]
        rw [hq]
        exact joinC_ne_nil_of_two pathsep value g gs
      | false =>
        simp only [updatedValue, if_neg hm, Bool.false_eq_true, if_false]
        rw [hq]
        cases gs with
        | nil => exact joinC_ne_nil_of_two pathsep g value []
        | cons g2 gs2 =>
          exact joinC_ne_nil_of_two pathsep g g2 (gs2 ++ [value])

theorem mem_splitC_updatedValue (value cur : List Char) (p : Bool)
    (hsep : pathsep ∉ value) :
    value ∈ splitC pathsep (updatedValue value cur p) := by
  by_cases hm : value ∈ splitC pathsep cur
  · rw [updatedValue_of_mem value cur p hm]; exact hm
  · rw [splitC_updatedValue_of_not_mem value cur p hsep hm]
    cases p with
    | true => simp
    | false => simp

/-- C7 (amended): for every environment, variable name and string value
that does not contain `os.pathsep`: if the variable is unset it becomes
exactly `value`; if `value` already occurs among the
`os.pathsep`-separated components the environment is observationally
unchanged; otherwise the new value's component list is `value` inserted at
the front (`prepend = true`, the default) or appended at the back; and
calling the function twice with the same arguments equals calling it
once. -/
theorem add_environ_variable_spec (env : PyEnv) (varName : String)
    (value : List Char) (prepend : Bool) (hsep : pathsep ∉ value) :
    (envGet env varName = none →
        envGet (add_environ_variable env varName value prepend) varName = some value)
    ∧ (∀ cur, envGet env varName = some cur → cur ≠ [] →
        value ∈ splitC pathsep cur →
        ∀ k, envGet (add_environ_variable env varName value prepend) k = envGet env k)
    ∧ (∀ cur, envGet env varName = some cur → cur ≠ [] →
        value ∉ splitC pathsep cur →
        ∃ newv,
          envGet (add_environ_variable env varName value prepend) varName = some newv
          ∧ splitC pathsep newv =
              (if prepend then value :: splitC pathsep cur
               else splitC pathsep cur ++ [value]))
    ∧ add_environ_variable (add_environ_variable env varName value prepend)
        varName value prepend = add_environ_variable env varName value prepend := by
  refine ⟨?_, ?_, ?_, ?_⟩
  · intro hnone
    rw [add_eq_of_none env varName value prepend hnone, envGet_envPut]
  · intro cur hcur hne hmem
    rw [add_eq_of_some env varName value prepend cur hcur hne,
      updatedValue_of_mem value cur prepend hmem]
    intro k
    by_cases hk : k = varName
    · subst hk; rw [envGet_envPut, hcur]
    · exact envGet_envPut_ne env varName k cur hk
  · intro cur hcur hne hmem
    rw [add_eq_of_some env varName value prepend cur hcur hne]
    exact ⟨updatedValue value cur prepend, envGet_envPut env varName _,
      splitC_updatedValue_of_not_mem value cur prepend hsep hmem⟩
  · cases hcur : envGet env varName with
    | none =>
      rw [add_eq_of_none env varName value prepend hcur]
      by_cases hv : value = []
      · subst hv
        rw [add_eq_of_empty (envPut env varName []) varName [] prepend
          (envGet_envPut env varName [])]
        exact envPut_envPut env varName [] []
      · rw [add_eq_of_some (envPut env varName value) varName value prepend
          value (envGet_envPut env varName value) hv]
        rw [updatedValue_of_mem value value prepend
          (by rw [splitC_of_not_mem pathsep value hsep]; simp)]
        exact envPut_envPut env varName value value
    | some cur =>
      by_cases hne : cur = []
      · subst hne
        rw [add_eq_of_empty env varName value prepend hcur]
        by_cases hv : value = []
        · subst hv
          rw [add_eq_of_empty (envPut env varName []) varName [] prepend
            (envGet_envPut env varName [])]
          exact envPut_envPut env varName [] []
        · rw [add_eq_of_some (envPut env varName value) varName value prepend
            value (envGet_envPut env varName value) hv]
          rw [updatedValue_of_mem value value prepend
            (by rw [splitC_of_not_mem pathsep value hsep]; simp)]
          exact envPut_envPut env varName value value
      · rw [add_eq_of_some env varName value prepend cur hcur hne]
        rw [add_eq_of_some (envPut env varName (updatedValue value cur prepend))
          varName value prepend (updatedValue value cur prepend)
          (envGet_envPut env varName _)
          (updatedValue_ne_nil value cur prepend hne)]
        rw [updatedValue_of_mem value (updatedValue value cur prepend) prepend
          (mem_splitC_updatedValue value cur prepend hsep)]
        exact envPut_envPut env varName _ _

/-- Witness for C7: a concrete application of the amended theorem. -/
theorem add_environ_variable_spec_witness :
    pathsep ∉ ['a']
    ∧ add_environ_variable (add_environ_variable [] "V" ['a'] true) "V" ['a'] true
        = add_environ_variable [] "V" ['a'] true :=
  ⟨by decide, (add_environ_variable_spec [] "V" ['a'] true (by decide)).2.2.2⟩

/-! ## Shared error type

Python exceptions and error terminations observable in the embedded code:
`raise Exception(msg)`, `sys.exit(1)` and the uncaught runtime errors the
source can produce (IndexError from indexing an empty `glob` result or an
empty argument list, NameError from the unqualified `self` in the
module-level `download_data`, TypeError from `os.environ[k] = None`,
ValueError from unpacking `line.split()`). -/

inductive Err where
  | exception (msg : String)
  | typeError
  | indexError
  | nameError
  | valueError
  | fileNotFound
  | sysExit
deriving DecidableEq

/-! All Python string operations used by the embedded code are defined by
structural recursion over `String.data` (the character list), so that they
evaluate on concrete inputs; the core `String` functions based on byte
positions use well-founded recursion and do not reduce. -/

/-- Is `pat` a prefix of `s` (on character lists)? -/
def startsWithL : List Char → List Char → Bool
  | [], _ => true
  | _ :: _, [] => false
  | p :: ps, c :: cs => p == c && startsWithL ps cs

/-- Python `pat in s` substring containment on character lists. -/
def hasSubL (pat : List Char) : List Char → Bool
  | [] => startsWithL pat []
  | c :: cs => startsWithL pat (c :: cs) || hasSubL pat cs

/-- Python `pat in s` substring test. -/
def hasSub (s pat : String) : Bool := hasSubL pat.data s.data

/-- Python `s.startswith(pat)`. -/
def pyStartsWith (s pat : String) : Bool := startsWithL pat.data s.data

/-- Python `s.endswith(pat)` (used for the `*X` glob patterns, which match
names ending in `X`). -/
def pyEndsWith (s pat : String) : Bool :=
  startsWithL pat.data.reverse s.data.reverse

/-- Python `s.split(sep)` for the single-character separators used by the
source (`' '` and `'/'`), keeping empty chunks. -/
def pySplitChar (sep : Char) (s : String) : List String :=
  (splitC sep s.data).map (fun l => String.mk l)

/-- Python `s.split()` (no separator): split on whitespace and drop empty
chunks; the embedded file lines use plain spaces. -/
def pySplit (s : String) : List String :=
  ((splitC ' ' s.data).filter (fun l => l ≠ [])).map (fun l => String.mk l)

/-- Drop leading space characters. -/
def dropLeadingSpaces : List Char → List Char
  | [] => []
  | c :: cs => if c = ' ' then dropLeadingSpaces cs else c :: cs

/-- Python `s.strip()` restricted to the space character (the only
whitespace the embedded code produces at the ends of its strings). -/
def pyStrip (s : String) : String :=
  String.mk ((dropLeadingSpaces (dropLeadingSpaces s.data).reverse).reverse)

/-! ## `SASpipeline.add_command` (pipeline.py lines 93-122)

The pipeline is the list of command lines.  `SAS_PATH` with the parameter
files present in each entry's `config` subdirectory is modelled as an
association list: entry path to the list of `.par` file names its `config`
subdirectory holds, so that `glob(os.path.join(path, 'config', parfile))`
is nonempty exactly when `parfile` is in the entry's list.  The
`MyTask(...)`, `readparfile()` and `processargs()` calls target
`pysas.sastask`, which is outside the embedded modules; they are modelled
as succeeding so that the validation loop and the append are reached. -/

def add_command (sasPathConfig : List (String × List String))
    (pipeline : List String) (cmd : String) (inargs : List String) :
    Except Err (List String) :=
  let parfile := cmd ++ ".par"
  if sasPathConfig.any (fun e => e.2.contains parfile) then
    match inargs with
    | [] => Except.error Err.indexError
    | a :: _ => Except.ok (pipeline ++ [pyStrip (cmd ++ " " ++ a)])
  else
    Except.error (Err.exception "The command named cmd does not exist. Wrong syntax?")

/-- C4 (code bug): `add_command` evaluates `inargs[0]` when building the
pipeline line, so a validated command with the documented default
`inargs=[]` ("Can be left blank") raises IndexError instead of being
appended; and with several arguments only the first is appended, dropping
the rest.  Here `cifbuild.par` is present in the `config` directory of the
single `SAS_PATH` entry, so validation succeeds, yet the empty argument
list crashes and `["a", "b"]` loses `"b"`. -/
theorem add_command_empty_args_bug :
    add_command [("/sas", ["cifbuild.par"])] ["evselect table=evts"] "cifbuild" []
      = Except.error Err.indexError
    ∧ add_command [("/sas", ["cifbuild.par"])] [] "cifbuild" ["a", "b"]
      = Except.ok ["cifbuild a"] := by
  constructor
  · rfl
  · rfl

/-! ## `SASpipeline.remove_command` (pipeline.py lines 124-161) -/

/-- Python `line.split(' ', 1)[0]`: the text before the first space. -/
def firstWord (s : String) : String := String.mk ((splitC ' ' s.data).headD [])

/-- Python `cmd == line.split(' ', 1)[0]` where `cmd` may be `None`
(comparing `None` with a string is `False`). -/
def cmdMatches (cmd : Option String) (line : String) : Bool :=
  match cmd with
  | some c => c == firstWord line
  | none => false

/-- The `for i, line in enumerate(self.pipeline)` loop collecting the line
numbers whose first word is `cmd`. -/
def findCmdLines (cmd : Option String) : Nat → List String → List Nat
  | _, [] => []
  | i, l :: ls =>
    if cmdMatches cmd l then i :: findCmdLines cmd (i + 1) ls
    else findCmdLines cmd (i + 1) ls

/-- `SASpipeline.remove_command`: with a truthy `linenum` (Python `if
linenum:` is false for `None` and for `0`) checks the command appears in
that line and pops it; otherwise collects the lines whose first
space-separated word equals `cmd` and pops the unique one, raising when
none or several are found. -/
def remove_command (pipeline : List String) (cmd : Option String)
    (linenum : Option Nat) : Except Err (List String) :=
  let lnTruthy : Bool := match linenum with | some n => n != 0 | none => false
  if lnTruthy then
    let n := linenum.getD 0
    match pipeline[n]? with
    | none => Except.error Err.indexError
    | some line =>
      let cmdTruthy : Bool := match cmd with | some c => c != "" | none => false
      if cmdTruthy && !(hasSub line (cmd.getD "")) then
        Except.error (Err.exception "Command cmd not found in line number linenum.")
      else Except.ok (pipeline.eraseIdx n)
  else
    match findCmdLines cmd 0 pipeline with
    | [] => Except.error (Err.exception "No lines with cmd were found.")
    | [i] => Except.ok (pipeline.eraseIdx i)
    | _ :: _ :: _ =>
      Except.error (Err.exception "Multiple lines with the command cmd found.")

theorem findCmdLines_of_no_match (c : String) (ls : List String) :
    ∀ (s : Nat), (∀ l ∈ ls, firstWord l ≠ c) →
      findCmdLines (some c) s ls = [] := by
  induction ls with
  | nil => intro s h; rfl
  | cons hd tl ih =>
    intro s h
    have hhd : cmdMatches (some c) hd = false := by
      simp only [cmdMatches, beq_eq_false_iff_ne, ne_eq]
      exact fun he => absurd he.symm (h hd (by simp))
    simp only [findCmdLines, hhd, Bool.false_eq_true, if_false]
    exact ih (s + 1) (fun l hl => h l (List.mem_cons_of_mem hd hl))

theorem mem_findCmdLines (c : String) (ls : List String) :
    ∀ (s : Nat) (j : Nat),
      j ∈ findCmdLines (some c) s ls ↔
        ∃ k l, ls[k]? = some l ∧ firstWord l = c ∧ j = s + k := by
  induction ls with
  | nil => intro s j; simp [findCmdLines]
  | cons hd tl ih =>
    intro s j
    by_cases hhd : firstWord hd = c
    · have hm : cmdMatches (some c) hd = true := by
        simp [cmdMatches, hhd]
      simp only [findCmdLines, hm, if_true]
      constructor
      · intro hj
        rcases List.mem_cons.mp hj with h | h
        · exact ⟨0, hd, by simp, hhd, by simp [h]⟩
        · rcases (ih (s + 1) j).mp h with ⟨k, l, hget, hfw, hjv⟩
          exact ⟨k + 1, l, by simpa using hget, hfw, by omega⟩
      · rintro ⟨k, l, hget, hfw, hjv⟩
        cases k with
        | zero =>
          simp only [List.getElem?_cons_zero, Option.some_inj] at hget
          subst hjv
          simp
        | succ k2 =>
          refine List.mem_cons_of_mem s ((ih (s + 1) j).mpr ⟨k2, l, ?_, hfw, by omega⟩)
          simpa using hget
    · have hm : cmdMatches (some c) hd = false := by
        simp only [cmdMatches, beq_eq_false_iff_ne, ne_eq]
        exact fun he => absurd he.symm hhd
      simp only [findCmdLines, hm, Bool.false_eq_true, if_false]
      rw [ih (s + 1) j]
      constructor
      · rintro ⟨k, l, hget, hfw, hjv⟩
        exact ⟨k + 1, l, by simpa using hget, hfw, by omega⟩
      · rintro ⟨k, l, hget, hfw, hjv⟩
        cases k with
        | zero =>
          simp only [List.getElem?_cons_zero, Option.some_inj] at hget
          rw [hget] at hhd
          exact absurd hfw hhd
        | succ k2 =>
          exact ⟨k2, l, by simpa using hget, hfw, by omega⟩

theorem findCmdLines_of_unique (c : String) (ls : List String) :
    ∀ (s i : Nat) (l : String), ls[i]? = some l → firstWord l = c →
      (∀ (j : Nat) (l2 : String), ls[j]? = some l2 → firstWord l2 = c → j = i) →
      findCmdLines (some c) s ls = [s + i] := by
  induction ls with
  | nil => intro s i l hget; simp at hget
  | cons hd tl ih =>
    intro s i l hget hfw huniq
    cases i with
    | zero =>
      simp only [List.getElem?_cons_zero, Option.some_inj] at hget
      subst hget
      have hm : cmdMatches (some c) hd = true := by
        simp [cmdMatches, hfw]
      have htl : findCmdLines (some c) (s + 1) tl = [] := by
        refine findCmdLines_of_no_match c tl (s + 1) ?_
        intro l2 hl2 hfw2
        rcases List.mem_iff_getElem?.mp hl2 with ⟨k, hk⟩
        have : k + 1 = 0 := huniq (k + 1) l2 (by simpa using hk) hfw2
        omega
      simp [findCmdLines, hm, htl]
    | succ i2 =>
      have hhd : cmdMatches (some c) hd = false := by
        simp only [cmdMatches, beq_eq_false_iff_ne, ne_eq]
        intro he
        have : 0 = i2 + 1 := huniq 0 hd (by simp) he.symm
        omega
      simp only [findCmdLines, hhd, Bool.false_eq_true, if_false]
      have hres := ih (s + 1) i2 l (by simpa using hget) hfw (fun j l2 hj hf => by
        have : j + 1 = i2 + 1 := huniq (j + 1) l2 (by simpa using hj) hf
        omega)
      rw [hres]
      congr 1
      omega

/-- C10: calling `remove_command(cmd)` with no line number removes exactly
the unique pipeline line whose first space-separated word equals `cmd`
when there is exactly one such line, and raises an exception (leaving the
pipeline unchanged: the model returns the error before any removal, as the
source raises before `pop`) when there are zero or several such lines. -/
theorem remove_command_spec (pipeline : List String) (c : String) :
    (∀ (i : Nat) (l : String), pipeline[i]? = some l → firstWord l = c →
      (∀ (j : Nat) (l2 : String), pipeline[j]? = some l2 → firstWord l2 = c → j = i) →
      remove_command pipeline (some c) none = Except.ok (pipeline.eraseIdx i))
    ∧ ((∀ l ∈ pipeline, firstWord l ≠ c) →
      remove_command pipeline (some c) none
        = Except.error (Err.exception "No lines with cmd were found."))
    ∧ (∀ (i j : Nat) (li lj : String), i ≠ j →
      pipeline[i]? = some li → pipeline[j]? = some lj →
      firstWord li = c → firstWord lj = c →
      remove_command pipeline (some c) none
        = Except.error (Err.exception "Multiple lines with the command cmd found.")) := by
  have hunf : ∀ (res : List Nat), findCmdLines (some c) 0 pipeline = res →
      remove_command pipeline (some c) none =
        (match res with
         | [] => Except.error (Err.exception "No lines with cmd were found.")
         | [i] => Except.ok (pipeline.eraseIdx i)
         | _ :: _ :: _ =>
            Except.error (Err.exception "Multiple lines with the command cmd found.")) := by
    intro res hres
    rw [remove_command, if_neg (by simp), hres]
  refine ⟨?_, ?_, ?_⟩
  · intro i l hget hfw huniq
    have h := findCmdLines_of_unique c pipeline 0 i l hget hfw huniq
    rw [hunf [0 + i] h]
    simp
  · intro h
    have h0 := findCmdLines_of_no_match c pipeline 0 h
    rw [hunf [] h0]
  · intro i j li lj hij hgi hgj hfi hfj
    have hmi : i ∈ findCmdLines (some c) 0 pipeline :=
      (mem_findCmdLines c pipeline 0 i).mpr ⟨i, li, hgi, hfi, by omega⟩
    have hmj : j ∈ findCmdLines (some c) 0 pipeline :=
      (mem_findCmdLines c pipeline 0 j).mpr ⟨j, lj, hgj, hfj, by omega⟩
    cases hf : findCmdLines (some c) 0 pipeline with
    | nil => rw [hf] at hmi; simp at hmi
    | cons x rest =>
      cases rest with
      | nil =>
        rw [hf] at hmi hmj
        simp at hmi hmj
        exact absurd (hmi.trans hmj.symm) hij
      | cons y rest2 => rw [hunf (x :: y :: rest2) hf]

/-- Witness for C10: the theorem applied to a concrete pipeline in which
exactly one line starts with the word `cifbuild`. -/
theorem remove_command_spec_witness :
    remove_command ["cifbuild withccfpath=yes", "odfingest"] (some "cifbuild") none
      = Except.ok ["odfingest"] := by
  have h := (remove_command_spec ["cifbuild withccfpath=yes", "odfingest"] "cifbuild").1
    0 "cifbuild withccfpath=yes" (by rfl) (by decide)
    (by
      intro j l2 hj hf
      match j, hj with
      | 0, _ => rfl
      | 1, hj =>
        exfalso
        simp only [List.getElem?_cons_succ, List.getElem?_cons_zero,
          Option.some_inj] at hj
        rw [← hj] at hf
        exact absurd hf (by decide)
      | n + 2, hj => simp at hj)
  exact h

/-! ## World state for odfcontrol.py and startsas.py

Directory paths are component lists of absolute paths.  A file has the
directory it lives in, a name, and its text lines.  External effects
(astroquery downloads, tar extraction, cifbuild/odfingest/gpg/wget runs,
sciserver copies) are supplied by an `Oracle`. -/

/-- A file: directory path, name, lines of text. -/
structure FileEnt where
  dir : List String
  name : String
  lines : List String
deriving DecidableEq

/-- Process state: current directory, environment, directories, files. -/
structure World where
  cwd : List String
  env : List (String × String)
  dirs : List (List String)
  files : List FileEnt
deriving DecidableEq

/-- Observable side effects recorded while the embedded code runs. -/
inductive Act where
  | rmtree (p : List String)
  | invoke (cmd : List String)
  | downloadReq (odfid levl : String)
  | callDownloadData (odfid level : String)
  | extractTar (tarName : String) (dest : List String)
  | removeFile (p : List String) (name : String)
  | decryptFile (p : List String) (name : String)
  | copytreeAct (levl : String) (dest : List String)
deriving DecidableEq

/-- Result of a run: normal return or a raised error, with the final state. -/
inductive Outcome where
  | ok (w : World)
  | err (e : Err) (w : World)
deriving DecidableEq

def Outcome.world : Outcome → World
  | Outcome.ok w => w
  | Outcome.err _ w => w

/-- A computation result: outcome plus the trace of recorded actions. -/
abbrev RR := Outcome × List Act

def okR (w : World) : RR := (Outcome.ok w, [])

def errR (e : Err) (w : World) : RR := (Outcome.err e w, [])

/-- Sequencing: on success continue, on error stop, keeping the trace. -/
def seqR (r : RR) (f : World → RR) : RR :=
  match r with
  | (Outcome.ok w, t) =>
    let s := f w
    (s.1, t ++ s.2)
  | (Outcome.err e w, t) => (Outcome.err e w, t)

/-- `os.path.join` for one component. -/
def pj (p : List String) (c : String) : List String := p ++ [c]

/-- Environment lookup, `os.environ.get`. -/
def wGetEnv : List (String × String) → String → Option String
  | [], _ => none
  | q :: rest, k => if q.1 = k then some q.2 else wGetEnv rest k

/-- Python truthiness of an environment variable. -/
def envTruthy (w : World) (k : String) : Bool :=
  match wGetEnv w.env k with
  | some v => v != ""
  | none => false

def wDelEnv : List (String × String) → String → List (String × String)
  | [], _ => []
  | q :: rest, k => if q.1 = k then wDelEnv rest k else q :: wDelEnv rest k

/-- `os.environ[k] = v`. -/
def wSetEnv (w : World) (k v : String) : World :=
  { w with env := (k, v) :: wDelEnv w.env k }

/-- `os.path.isdir`. -/
def dirEx (w : World) (p : List String) : Bool := w.dirs.contains p

/-- Is `p` equal to `root` or inside the subtree of `root`? -/
def isUnderB (root p : List String) : Bool := root.isPrefixOf p

def wChdir (w : World) (p : List String) : World := { w with cwd := p }

def wMkdir (w : World) (p : List String) : World := { w with dirs := p :: w.dirs }

/-- `shutil.rmtree`: drop the directory and everything below it. -/
def wRmtree (w : World) (p : List String) : World :=
  { w with
    dirs := w.dirs.filter (fun d => !(isUnderB p d)),
    files := w.files.filter (fun f => !(isUnderB p f.dir)) }

/-- Files written into directory `d` (name and lines pairs). -/
def wAddFilesAt (w : World) (d : List String) (fs : List (String × List String)) : World :=
  { w with files := w.files ++ fs.map (fun nf => FileEnt.mk d nf.1 nf.2) }

/-- Files written below `dest` (relative dir, name, lines triples),
as `tarfile.extractall` and `shutil.copytree` do. -/
def wAddRel (w : World) (dest : List String)
    (fs : List (List String × String × List String)) : World :=
  { w with files := w.files ++ fs.map (fun rf => FileEnt.mk (dest ++ rf.1) rf.2.1 rf.2.2) }

/-- `os.remove`. -/
def wRemoveFile (w : World) (d : List String) (n : String) : World :=
  { w with files := w.files.filter (fun f => !(f.dir == d && f.name == n)) }

/-- `open(path, 'wb')`: overwrite or create. -/
def wWriteFile (w : World) (d : List String) (n : String) (lines : List String) : World :=
  let w2 := wRemoveFile w d n
  { w2 with files := w2.files ++ [FileEnt.mk d n lines] }

def fileExAt (w : World) (d : List String) (n : String) : Bool :=
  w.files.any (fun f => f.dir == d && f.name == n)

/-- Non-recursive `glob.glob` in a directory with a name predicate. -/
def globAt (w : World) (d : List String) (pred : String → Bool) : List FileEnt :=
  w.files.filter (fun f => f.dir == d && pred f.name)

/-- Recursive `glob.glob('**/...', recursive=True)` from a root. -/
def globRec (w : World) (root : List String) (pred : String → Bool) : List FileEnt :=
  w.files.filter (fun f => isUnderB root f.dir && pred f.name)

/-- The `os.walk` searches of `setodf`: all files below `root` whose name
contains `sub`; the last one found wins the assignment in the loop. -/
def walkFindLast (w : World) (root : List String) (sub : String) : Option FileEnt :=
  (w.files.filter (fun f => isUnderB root f.dir && hasSub f.name sub)).getLast?

/-- Render a component path as the absolute path string. -/
def renderPath (p : List String) : String :=
  p.foldl (fun acc c => acc ++ "/" ++ c) ""

def renderFile (f : FileEnt) : String := renderPath (pj f.dir f.name)

/-- `os.path.exists` on a raw path string. -/
def existsPathStr (w : World) (s : String) : Bool :=
  w.dirs.any (fun d => renderPath d == s) || w.files.any (fun f => renderFile f == s)

/-- `os.path.isfile` on a raw path string. -/
def isfileStr (w : World) (s : String) : Bool :=
  w.files.any (fun f => renderFile f == s)

/-- Look a file up by its raw path string (for `open(path)`). -/
def findFileStr (w : World) (s : String) : Option FileEnt :=
  w.files.find? (fun f => renderFile f == s)

/-- Is `p` a direct child of `d`? -/
def childOf (d p : List String) : Bool :=
  p.length == d.length + 1 && isUnderB d p

/-- Non-recursive `glob.glob(os.path.join(d, '*pat*'))`: matching files
and subdirectories of `d`, as raw path strings. -/
def globChildren (w : World) (d : List String) (pred : String → Bool) : List String :=
  (w.files.filter (fun f => f.dir == d && pred f.name)).map renderFile
    ++ (w.dirs.filter (fun p => childOf d p &&
          (match p.getLast? with | some b => pred b | none => false))).map renderPath

/-- External process and archive behaviour. -/
structure Oracle where
  /-- `subprocess.run(cmd).returncode`. -/
  rcOf : List String → Int
  /-- Files a command writes into the current directory. -/
  outOf : List String → List (String × List String)
  /-- Files `XMMNewton.download_data` drops into the current directory. -/
  dlOut : String → String → List (String × List String)
  /-- Contents of the downloaded `<odfid>.tar.gz` for a given level. -/
  dlTar : String → List (List String × String × List String)
  /-- Contents of a `*.TAR` archive by file name. -/
  tarOut : String → List (List String × String × List String)
  /-- `gpg` exit code per encrypted file name. -/
  gpgRc : String → Int
  /-- Decrypted contents per encrypted file name. -/
  gpgOut : String → List String
  /-- Unpacked contents per `.gz` file name. -/
  gunzipOut : String → List String
  /-- Files and directories the `wget` mirror creates. -/
  wgetAdd : List FileEnt × List (List String)
  /-- The sciserver archive tree per level, `none` when absent. -/
  archOut : String → Option (List (List String × String × List String))

/-- Python truthiness of an optional string parameter. -/
def optTruthy (o : Option String) : Bool :=
  match o with
  | some s => s != ""
  | none => false

/-- `cmd = ['cifbuild'] + cifbuild_opts.split(" ")` when the options are
truthy, else `['cifbuild']`. -/
def cifbuildCmd (o : Option String) : List String :=
  match o with
  | some opts => if opts ≠ "" then "cifbuild" :: pySplitChar ' ' opts else ["cifbuild"]
  | none => ["cifbuild"]

/-- Likewise for odfingest. -/
def odfingestCmd (o : Option String) : List String :=
  match o with
  | some opts => if opts ≠ "" then "odfingest" :: pySplitChar ' ' opts else ["odfingest"]
  | none => ["odfingest"]

/-- The PATH-keyword check on the freshly produced `*SUM.SAS` file
(odfcontrol lines 416-427, startsas lines 531-542): every line containing
`PATH` must split into exactly two words whose second equals the ODF
directory, else an exception (or ValueError from unpacking). -/
def sumSasPathMatch (odfDirStr : String) : List String → Option Err
  | [] => none
  | l :: ls =>
    if hasSub l "PATH" then
      match pySplit l with
      | [_, p] =>
        if p != odfDirStr then some (Err.exception "SAS summary file PATH mismatch")
        else sumSasPathMatch odfDirStr ls
      | _ => some Err.valueError
    else sumSasPathMatch odfDirStr ls

/-- The PATH-keyword check on an existing summary file (odfcontrol lines
272-284, startsas lines 584-596): the PATH value must exist on disk and
hold a `MANIFEST*` file; an empty MANIFEST glob raises IndexError, and the
`os.path.exists(MANIFEST[0])` test on a glob result never fails. -/
def sumSasPathCheckReuse (w : World) : List String → Option Err
  | [] => none
  | l :: ls =>
    if hasSub l "PATH" then
      match pySplit l with
      | [_, p] =>
        if ¬ existsPathStr w p then
          some (Err.exception "Summary file PATH does not exist.")
        else if (w.files.filter (fun f =>
            renderPath f.dir == p && pyStartsWith f.name "MANIFEST")).isEmpty then
          some Err.indexError
        else sumSasPathCheckReuse w ls
      | _ => some Err.valueError
    else sumSasPathCheckReuse w ls

/-! ## The cifbuild/odfingest chain (odfcontrol.py lines 325-432,
startsas.py lines 442-547)

`isRun` selects the two textual differences of the startsas copy: the
working directory is not created here (run made it earlier), and the
`print` for truthy `odfingest_opts` misspells the variable
(`odfiingest_opts`), raising NameError before odfingest ever runs. -/

def chainPart (orc : Oracle) (isRun : Bool) (cifbuildOpts odfingestOpts : Option String)
    (odf_dir work_dir : List String) (w0 : World) : RR :=
  -- os.chdir(odf_dir)
  if ¬ dirEx w0 odf_dir then errR Err.fileNotFound w0
  else
  let w := wChdir w0 odf_dir
  -- MANIFEST = glob.glob('MANIFEST*'); MANIFEST[0] raises IndexError when empty
  if (globAt w odf_dir (fun n => pyStartsWith n "MANIFEST")).isEmpty then
    errR Err.indexError w
  else
  -- os.environ['SAS_ODF'] = odf_dir
  let w := wSetEnv w "SAS_ODF" (renderPath odf_dir)
  -- setodf: if not os.path.exists(work_dir): os.mkdir(work_dir)
  let w := if isRun then w else if dirEx w work_dir then w else wMkdir w work_dir
  -- os.chdir(work_dir)
  if ¬ dirEx w work_dir then errR Err.fileNotFound w
  else
  let w := wChdir w work_dir
  -- rc = subprocess.run(cifbuild command)
  let ccmd := cifbuildCmd cifbuildOpts
  let w := wAddFilesAt w work_dir (orc.outOf ccmd)
  if orc.rcOf ccmd ≠ 0 then
    (Outcome.err (Err.exception "cifbuild failed to complete") w, [Act.invoke ccmd])
  else
  -- ccfcif = glob.glob('ccf.cif'); ccfcif[0] raises IndexError when empty
  if ¬ fileExAt w work_dir "ccf.cif" then
    (Outcome.err Err.indexError w, [Act.invoke ccmd])
  else
  -- os.environ['SAS_CCF'] = work_dir/ccf.cif
  let w := wSetEnv w "SAS_CCF" (renderPath (pj work_dir "ccf.cif"))
  -- startsas only: print(f'... {odfiingest_opts} ...') raises NameError
  if isRun && optTruthy odfingestOpts then
    (Outcome.err Err.nameError w, [Act.invoke ccmd])
  else
  let ocmd := odfingestCmd odfingestOpts
  let w := wAddFilesAt w work_dir (orc.outOf ocmd)
  if orc.rcOf ocmd ≠ 0 then
    (Outcome.err (Err.exception "odfingest failed to complete") w,
      [Act.invoke ccmd, Act.invoke ocmd])
  else
  -- sumsas = glob.glob('*SUM.SAS'); sumsas[0] raises IndexError when empty
  match globAt w work_dir (fun n => pyEndsWith n "SUM.SAS") with
  | [] => (Outcome.err Err.indexError w, [Act.invoke ccmd, Act.invoke ocmd])
  | f :: _ =>
    let w := wSetEnv w "SAS_ODF" (renderFile f)
    match sumSasPathMatch (renderPath odf_dir) f.lines with
    | some e => (Outcome.err e w, [Act.invoke ccmd, Act.invoke ocmd])
    | none => (Outcome.ok w, [Act.invoke ccmd, Act.invoke ocmd])

/-! ## `download_data` (odfcontrol.py lines 434-646) -/

/-- The per-level body of the esa download loop (lines 498-533): request
the level from the archive into the observation directory, make the `ODF`
or `PPS` subdirectory, untar `<odfid>.tar.gz` into it and remove the tar
(the `os.path.exists(odftar)` try/except never raises; a missing tar makes
`tarfile.open` fail). -/
def esaLoop (orc : Oracle) (odfid : String)
    (obs_dir odf_dir pps_dir : List String) : List String → World → RR
  | [], w => okR w
  | levl :: rest, w =>
    let odftar := odfid ++ ".tar.gz"
    let w := wAddFilesAt w obs_dir (orc.dlOut odfid levl)
    let w := if levl == "ODF" then wMkdir w odf_dir
             else if levl == "PPS" then wMkdir w pps_dir else w
    if ¬ fileExAt w obs_dir odftar then
      (Outcome.err Err.fileNotFound w, [Act.downloadReq odfid levl])
    else if levl == "ODF" then
      let w := wAddRel w odf_dir (orc.dlTar levl)
      let w := wRemoveFile w obs_dir odftar
      let r := esaLoop orc odfid obs_dir odf_dir pps_dir rest w
      (r.1, Act.downloadReq odfid levl :: Act.extractTar odftar odf_dir
        :: Act.removeFile obs_dir odftar :: r.2)
    else if levl == "PPS" then
      let w := wAddRel w pps_dir (orc.dlTar levl)
      let w := wRemoveFile w obs_dir odftar
      let r := esaLoop orc odfid obs_dir odf_dir pps_dir rest w
      (r.1, Act.downloadReq odfid levl :: Act.extractTar odftar pps_dir
        :: Act.removeFile obs_dir odftar :: r.2)
    else
      -- an unknown level opens the tar but extracts nothing
      let w := wRemoveFile w obs_dir odftar
      let r := esaLoop orc odfid obs_dir odf_dir pps_dir rest w
      (r.1, Act.downloadReq odfid levl :: Act.removeFile obs_dir odftar :: r.2)

/-- The `wget` command string of the heasarc branch. -/
def wgetCmd (odfid levl : String) : List String :=
  ["wget -m -nH -e robots=off --cut-dirs=4 -l 2 -np " ++
    "https://heasarc.gsfc.nasa.gov/FTP/xmm/data/rev0/" ++ odfid ++ "/" ++ levl]

/-- Is a directory removed by the post-wget cleanup walk? -/
def dirDoomed (cwd : List String) (level : String) (d : List String) : Bool :=
  isUnderB cwd d &&
    (match d.getLast? with
     | some b => hasSub b "4XMM" || (level == "ODF" && b == "PPS")
         || (level == "PPS" && b == "ODF")
     | none => false)

/-- The `os.walk('.')` cleanup after wget (lines 544-554): drop
`index.html` files and the `4XMM` and opposite-level subtrees below the
current directory.  The walk-while-removing order is abstracted into
subtree filters. -/
def heasarcClean (level : String) (w : World) : World :=
  let doomed := w.dirs.filter (dirDoomed w.cwd level)
  { w with
    files := (w.files.filter (fun f =>
        !(isUnderB w.cwd f.dir && hasSub f.name "index.html"))).filter
      (fun f => !(doomed.any (fun d => isUnderB d f.dir))),
    dirs := w.dirs.filter (fun d2 => !(doomed.any (fun d => isUnderB d d2))) }

/-- The repository dispatch of `download_data` (lines 490-570).  A repo
that is none of esa, heasarc and sciserver matches no branch: nothing is
downloaded and no error is raised. -/
def downloadBranch (orc : Oracle) (odfid level : String)
    (obs_dir odf_dir pps_dir : List String) (repo : String) (w : World) : RR :=
  if repo == "esa" then
    let w := wChdir w obs_dir
    let levels := if level == "ALL" then ["ODF", "PPS"] else [level]
    esaLoop orc odfid obs_dir odf_dir pps_dir levels w
  else if repo == "heasarc" then
    let levl := if level == "ALL" then "" else level
    let w := World.mk w.cwd w.env (w.dirs ++ orc.wgetAdd.2) (w.files ++ orc.wgetAdd.1)
    (Outcome.ok (heasarcClean level w), [Act.invoke (wgetCmd odfid levl)])
  else if repo == "sciserver" then
    let levl := if level == "ALL" then "" else level
    let dest := if level == "ALL" then obs_dir else pj obs_dir levl
    let w := if levl == "ODF" then wMkdir w odf_dir
             else if levl == "PPS" then wMkdir w pps_dir else w
    match orc.archOut levl with
    | none => errR Err.fileNotFound w
    | some fs => (Outcome.ok (wAddRel w dest fs), [Act.copytreeAct levl dest])
  else okR w

/-- The decryption loop (lines 611-625): skip files whose decrypted
counterpart exists; otherwise run gpg, fail on a nonzero exit code, write
the output (name without the `.gpg` suffix) and remove the encrypted
file. -/
def decryptLoop (orc : Oracle) : List FileEnt → World → RR
  | [], w => okR w
  | f :: rest, w =>
    let outName := String.mk (f.name.data.take (f.name.data.length - 4))
    if fileExAt w f.dir outName then decryptLoop orc rest w
    else if orc.gpgRc f.name ≠ 0 then
      errR (Err.exception "File decryption failed") w
    else
      let w := wWriteFile w f.dir outName (orc.gpgOut f.name)
      let w := wRemoveFile w f.dir f.name
      let r := decryptLoop orc rest w
      (r.1, Act.decryptFile f.dir f.name :: r.2)

/-- Reading the key file and running the loop (lines 599-625), shared by
the given-key paths of both decrypt sections: `lines[0]` of an empty key
file raises IndexError. -/
def readKeyAndDecrypt (orc : Oracle) (keyPath : String)
    (encrypted : List FileEnt) (w : World) : RR :=
  match findFileStr w keyPath with
  | none => errR Err.fileNotFound w
  | some f =>
    match f.lines with
    | [] => errR Err.indexError w
    | _ :: _ => decryptLoop orc encrypted w

/-- The decrypt section of `download_data` (lines 572-627).  When
encrypted files are present and no `encryption_key` was given, the code
reads `self.data_dir` — but `download_data` is a module-level function and
`self` is not defined, so NameError is raised before any key search. -/
def decryptPhaseDD (orc : Oracle) (encryption_key : Option String) (w : World) : RR :=
  let encrypted := globRec w w.cwd (fun n => pyEndsWith n ".gpg")
  if encrypted.isEmpty then okR w
  else
    match encryption_key with
    | none => errR Err.nameError w
    | some key =>
      if isfileStr w key then readKeyAndDecrypt orc key encrypted w
      else decryptLoop orc encrypted w

/-- The decrypt section of `startsas.run` (lines 359-414): with no key
given, glob `datadir/*odfid*` (which matches files and subdirectories of
the data directory), fall back to `datadir/*key*` when empty, and fail on
zero or several candidates or on a candidate that is not a regular
file. -/
def decryptPhaseRun (orc : Oracle) (odfid : String) (datadir : List String)
    (encryption_key : Option String) (w : World) : RR :=
  let encrypted := globRec w w.cwd (fun n => pyEndsWith n ".gpg")
  if encrypted.isEmpty then okR w
  else
    match encryption_key with
    | none =>
      let cand1 := globChildren w datadir (fun n => hasSub n odfid)
      let cand := if cand1.isEmpty then globChildren w datadir (fun n => hasSub n "key")
                  else cand1
      match cand with
      | [] => errR (Err.exception "File decryption failed. No encryption file found.") w
      | [e] =>
        if isfileStr w e then readKeyAndDecrypt orc e encrypted w
        else errR (Err.exception "File decryption failed. No encryption file found.") w
      | _ :: _ :: _ => errR (Err.exception "Multiple possible encryption key files.") w
    | some key =>
      if isfileStr w key then readKeyAndDecrypt orc key encrypted w
      else decryptLoop orc encrypted w

/-- The `*.gz` unpack loop (lines 629-637): write the file without the
`.gz` suffix next to it and remove the archive. -/
def gzLoop (orc : Oracle) : List FileEnt → World → RR
  | [], w => okR w
  | f :: rest, w =>
    let outName := String.mk (f.name.data.take (f.name.data.length - 3))
    let w := wWriteFile w f.dir outName (orc.gunzipOut f.name)
    let w := wRemoveFile w f.dir f.name
    let r := gzLoop orc rest w
    (r.1, Act.removeFile f.dir f.name :: r.2)

/-- The `*.TAR` unpack loop (lines 639-645): extract into the ODF
directory and remove the archive. -/
def tarLoop (orc : Oracle) (odf_dir : List String) : List FileEnt → World → RR
  | [], w => okR w
  | f :: rest, w =>
    let w := wAddRel w odf_dir (orc.tarOut f.name)
    let w := wRemoveFile w f.dir f.name
    let r := tarLoop orc odf_dir rest w
    (r.1, Act.extractTar f.name odf_dir :: Act.removeFile f.dir f.name :: r.2)

def gzPhase (orc : Oracle) (w : World) : RR :=
  gzLoop orc (globRec w w.cwd (fun n => pyEndsWith n ".gz")) w

def tarPhase (orc : Oracle) (odf_dir : List String) (w : World) : RR :=
  tarLoop orc odf_dir (globRec w w.cwd (fun n => pyEndsWith n ".TAR")) w

/-- `download_data(odfid, data_dir, level, encryption_key, repo)`:
unconditionally remove any existing `data_dir/odfid` tree, recreate it
with a `working` subdirectory, run the repository branch, then decrypt
and unpack.  The recursive globs run from the current directory, which
only the esa branch changes (to the observation directory). -/
def download_data (orc : Oracle) (odfid : String) (data_dir : List String)
    (level : String) (encryption_key : Option String) (repo : String)
    (w0 : World) : RR :=
  let obs_dir := pj data_dir odfid
  let odf_dir := pj obs_dir "ODF"
  let pps_dir := pj obs_dir "PPS"
  let work_dir := pj obs_dir "working"
  seqR (if dirEx w0 obs_dir then
          (Outcome.ok (wRmtree w0 obs_dir), [Act.rmtree obs_dir])
        else okR w0)
    (fun w1 =>
      let w2 := wMkdir (wMkdir w1 obs_dir) work_dir
      seqR (downloadBranch orc odfid level obs_dir odf_dir pps_dir repo w2)
        (fun w3 => seqR (decryptPhaseDD orc encryption_key w3)
          (fun w4 => seqR (gzPhase orc w4)
            (fun w5 => tarPhase orc odf_dir w5))))

/-! ## `ODF.setodf` (odfcontrol.py lines 94-432) -/

/-- The parameters of `setodf`.  The model takes the already resolved
absolute `data_dir` (the `None`/relative-path resolution of lines 186-198
reduces to the current directory and string surgery and is outside every
claim). -/
structure SetodfArgs where
  odfid : String
  data_dir : List String
  level : String
  sas_ccf : Option String
  sas_odf : Option String
  cifbuild_opts : Option String
  odfingest_opts : Option String
  encryption_key : Option String
  overwrite : Bool
  repo : String

/-- The reuse branch of `setodf` (lines 226-293): search the existing
observation tree for `ccf.cif` and `*SUM.SAS` files (the last `os.walk`
hit wins), export `SAS_CCF` and `SAS_ODF`, check the summary file PATH
keyword, make the work directory and return.  With no hit the assignment
`os.environ['SAS_CCF'] = None` (or `open(None)`) raises TypeError; a
given `sas_ccf`/`sas_odf` argument is used as is because the
`os.path.exists` try/except can never fail. -/
def setodfReuse (a : SetodfArgs) (obs_dir work_dir : List String) (w0 : World) : RR :=
  let ccfVal : Option String :=
    match a.sas_ccf with
    | some s => some s
    | none => (walkFindLast w0 obs_dir "ccf.cif").map renderFile
  match ccfVal with
  | none => errR Err.typeError w0
  | some ccf =>
    let w1 := wSetEnv w0 "SAS_CCF" ccf
    let odfVal : Option String :=
      match a.sas_odf with
      | some s => some s
      | none => (walkFindLast w1 obs_dir "SUM.SAS").map renderFile
    match odfVal with
    | none => errR Err.typeError w1
    | some sodf =>
      match findFileStr w1 sodf with
      | none => errR Err.fileNotFound w1
      | some f =>
        match sumSasPathCheckReuse w1 f.lines with
        | some e => errR e w1
        | none =>
          let w2 := wSetEnv w1 "SAS_ODF" sodf
          okR (if dirEx w2 work_dir then w2 else wMkdir w2 work_dir)

/-- `ODF.setodf`: check LHEASOFT/SAS_DIR/SAS_CCFPATH, create and enter the
data directory, then: reuse an existing `data_dir/odfid` when
`overwrite` is false; otherwise remove it (when present), check the level
and download afresh, finishing with the cifbuild/odfingest chain unless
only PPS products were requested. -/
def setodf (orc : Oracle) (a : SetodfArgs) (w0 : World) : RR :=
  if ¬ envTruthy w0 "LHEASOFT" then
    errR (Err.exception "LHEASOFT is not set. Please initialise HEASOFT") w0
  else if ¬ envTruthy w0 "SAS_DIR" then
    errR (Err.exception "SAS_DIR is not defined. Please initialise SAS.") w0
  else if ¬ envTruthy w0 "SAS_CCFPATH" then
    errR (Err.exception "SAS_CCFPATH not set. Please define it.") w0
  else
  let w1 := if dirEx w0 a.data_dir then w0 else wMkdir w0 a.data_dir
  let w2 := wChdir w1 a.data_dir
  let obs_dir := pj a.data_dir a.odfid
  let odf_dir := pj obs_dir "ODF"
  let work_dir := pj obs_dir "work"
  if dirEx w2 obs_dir && !a.overwrite then setodfReuse a obs_dir work_dir w2
  else
    seqR (if dirEx w2 obs_dir then
            (Outcome.ok (wRmtree w2 obs_dir), [Act.rmtree obs_dir])
          else okR w2)
      (fun w3 =>
        if ¬ (a.level == "ODF" || a.level == "PPS" || a.level == "ALL") then
          errR (Err.exception "ODF request level is undefined!") w3
        else
          seqR (Outcome.ok w3, [Act.callDownloadData a.odfid a.level])
            (fun w3b =>
              seqR (download_data orc a.odfid a.data_dir a.level
                      a.encryption_key a.repo w3b)
                (fun w4 =>
                  if a.level == "PPS" then okR w4
                  else chainPart orc false a.cifbuild_opts a.odfingest_opts
                    odf_dir work_dir w4)))

/-! ## `startsas.run` (startsas.py lines 108-600) -/

/-- The parameters of `run`; `datadir` is the resolved absolute work
directory (`workdir` after the `'pwd'`/relative handling of lines
206-226). -/
structure RunArgs where
  odfid : Option String
  datadir : List String
  level : String
  sasfiles : Bool
  sas_ccf : Option String
  sas_odf : Option String
  cifbuild_opts : Option String
  odfingest_opts : Option String
  encryption_key : Option String
  overwrite : Bool
  repo : String

/-- The repository dispatch of `run` (lines 278-357): as in
`download_data`, except that a leftover `<odfid>.tar.gz` is removed before
downloading and the sciserver branch makes no subdirectories. -/
def runDownloadBranch (orc : Oracle) (odfid level : String)
    (obs_dir odf_dir pps_dir : List String) (repo : String) (w : World) : RR :=
  if repo == "esa" then
    let w := wChdir w obs_dir
    let odftar := odfid ++ ".tar.gz"
    let w := if fileExAt w obs_dir odftar then wRemoveFile w obs_dir odftar else w
    let levels := if level == "ALL" then ["ODF", "PPS"] else [level]
    esaLoop orc odfid obs_dir odf_dir pps_dir levels w
  else if repo == "heasarc" then
    let levl := if level == "ALL" then "" else level
    let w := World.mk w.cwd w.env (w.dirs ++ orc.wgetAdd.2) (w.files ++ orc.wgetAdd.1)
    (Outcome.ok (heasarcClean level w), [Act.invoke (wgetCmd odfid levl)])
  else if repo == "sciserver" then
    let levl := if level == "ALL" then "" else level
    let dest := if level == "ALL" then obs_dir else pj obs_dir levl
    match orc.archOut levl with
    | none => errR Err.fileNotFound w
    | some fs => (Outcome.ok (wAddRel w dest fs), [Act.copytreeAct levl dest])
  else okR w

/-- The `sasfiles` branch of `run` (lines 549-600): both paths must be
absolute (an unset one raises TypeError at the subscript), the
`os.path.exists` try/except blocks never fail, `SAS_CCF` is exported, the
summary path must mention `SUM.SAS`, and the summary file PATH keyword is
checked as in the reuse branch of `setodf`. -/
def runSasfiles (a : RunArgs) (w : World) : RR :=
  match a.sas_ccf, a.sas_odf with
  | some sasccf, some sasodf =>
    if ¬ pyStartsWith sasccf "/" then
      errR (Err.exception "sas_ccf must be defined with absolute path") w
    else if ¬ pyStartsWith sasodf "/" then
      errR (Err.exception "sas_odf must be defined with absolute path") w
    else
      let w := wSetEnv w "SAS_CCF" sasccf
      if ¬ hasSub sasodf "SUM.SAS" then
        errR (Err.exception "sas_odf does not refer to a SAS SUM file") w
      else
        match findFileStr w sasodf with
        | none => errR Err.fileNotFound w
        | some f =>
          match sumSasPathCheckReuse w f.lines with
          | some e => errR e w
          | none => okR (wSetEnv w "SAS_ODF" sasodf)
  | _, _ => errR Err.typeError w

/-- `startsas.run`: input compatibility checks, environment checks, level
check; then, processing an odfid: refuse an existing `<workdir>/<odfid>`
unless `overwrite` (in which case it is removed), create the observation
and working directories, download, decrypt and unpack, and run the
cifbuild/odfingest chain unless the level is PPS. -/
def run (orc : Oracle) (a : RunArgs) (w0 : World) : RR :=
  let odfidTruthy : Bool := match a.odfid with | some s => s != "" | none => false
  if !odfidTruthy && !a.sasfiles then
    errR (Err.exception "Either an odfid must be given -OR- sasfiles = True") w0
  else if odfidTruthy && (optTruthy a.sas_ccf || optTruthy a.sas_odf) then
    errR (Err.exception "Parameter odfid icompatible with sas_ccf and sas_odf") w0
  else if a.sasfiles && (!optTruthy a.sas_ccf && !optTruthy a.sas_odf) then
    errR (Err.exception "Parameters sas_ccf and sas_odf must be set if sasfiles = True") w0
  else if ¬ envTruthy w0 "LHEASOFT" then
    errR (Err.exception "LHEASOFT is not set. Please initialise HEASOFT") w0
  else if ¬ envTruthy w0 "SAS_DIR" then
    errR (Err.exception "SAS_DIR is not defined. Please initialise SAS") w0
  else if ¬ envTruthy w0 "SAS_CCFPATH" then
    errR (Err.exception "SAS_CCFPATH not set. Please define it") w0
  else
  let w1 := if dirEx w0 a.datadir then w0 else wMkdir w0 a.datadir
  let w2 := wChdir w1 a.datadir
  if ¬ (a.level == "ODF" || a.level == "PPS" || a.level == "ALL") then
    errR (Err.exception "ODF request level is undefined!") w2
  else
  if odfidTruthy then
    let odfid := a.odfid.getD ""
    let obs_dir := pj a.datadir odfid
    let odf_dir := pj obs_dir "ODF"
    let pps_dir := pj obs_dir "PPS"
    let working_dir := pj obs_dir "working"
    seqR (if dirEx w2 obs_dir then
            (if a.overwrite then (Outcome.ok (wRmtree w2 obs_dir), [Act.rmtree obs_dir])
             else errR (Err.exception "Directory for odfid found, will not overwrite.") w2)
          else okR w2)
      (fun w3 =>
        let w4 := wMkdir w3 obs_dir
        let w5 := if dirEx w4 working_dir then w4 else wMkdir w4 working_dir
        seqR (runDownloadBranch orc odfid a.level obs_dir odf_dir pps_dir a.repo w5)
          (fun w6 => seqR (decryptPhaseRun orc odfid a.datadir a.encryption_key w6)
            (fun w7 => seqR (gzPhase orc w7)
              (fun w8 => seqR (tarPhase orc odf_dir w8)
                (fun w9 =>
                  if a.level == "PPS" then okR w9
                  else chainPart orc true a.cifbuild_opts a.odfingest_opts
                    odf_dir working_dir w9)))))
  else if a.sasfiles then runSasfiles a w2
  else okR w2

def Outcome.isErr : Outcome → Bool
  | Outcome.ok _ => false
  | Outcome.err _ _ => true

theorem cifbuildCmd_head (co : Option String) :
    (cifbuildCmd co).head? = some "cifbuild" := by
  cases co with
  | none => rfl
  | some s =>
    simp only [cifbuildCmd]
    split <;> rfl

theorem odfingestCmd_head (oo : Option String) :
    (odfingestCmd oo).head? = some "odfingest" := by
  cases oo with
  | none => rfl
  | some s =>
    simp only [odfingestCmd]
    split <;> rfl

theorem cifbuild_ne_odfingest (co oo : Option String) :
    cifbuildCmd co ≠ odfingestCmd oo := by
  intro h
  have h1 := cifbuildCmd_head co
  rw [h, odfingestCmd_head oo] at h1
  exact absurd (Option.some.inj h1) (by decide)

/-- C2: in the cifbuild/odfingest chain shared by `ODF.setodf` and
`startsas.run` (level not PPS): a nonzero cifbuild exit code raises an
exception and odfingest is never invoked; odfingest is invoked only after
a cifbuild invocation that returned zero; and a nonzero odfingest exit
code raises an exception. -/
theorem chainPart_exit_code_chain (orc : Oracle) (isRun : Bool)
    (co oo : Option String) (odf_dir work_dir : List String) (w0 : World) :
    (orc.rcOf (cifbuildCmd co) ≠ 0 →
      ((chainPart orc isRun co oo odf_dir work_dir w0).1).isErr = true
      ∧ Act.invoke (odfingestCmd oo) ∉ (chainPart orc isRun co oo odf_dir work_dir w0).2)
    ∧ (Act.invoke (odfingestCmd oo) ∈ (chainPart orc isRun co oo odf_dir work_dir w0).2 →
      orc.rcOf (cifbuildCmd co) = 0
      ∧ ∃ t1 t2, (chainPart orc isRun co oo odf_dir work_dir w0).2
          = t1 ++ Act.invoke (cifbuildCmd co) :: t2
        ∧ Act.invoke (odfingestCmd oo) ∈ t2)
    ∧ (Act.invoke (odfingestCmd oo) ∈ (chainPart orc isRun co oo odf_dir work_dir w0).2 →
      orc.rcOf (odfingestCmd oo) ≠ 0 →
      ∃ w, (chainPart orc isRun co oo odf_dir work_dir w0).1
        = Outcome.err (Err.exception "odfingest failed to complete") w) := by
  have hne : Act.invoke (odfingestCmd oo) ≠ Act.invoke (cifbuildCmd co) := by
    intro h
    exact absurd (Act.invoke.inj h).symm (cifbuild_ne_odfingest co oo)
  simp only [chainPart]
  by_cases h1 : dirEx w0 odf_dir = true
  case neg =>
    simp only [h1, Bool.false_eq_true, not_false_iff, if_true, errR]
    exact ⟨fun _ => ⟨rfl, by simp⟩, fun hm => absurd hm (by simp),
      fun hm => absurd hm (by simp)⟩
  case pos =>
  simp only [h1, not_true, if_false]
  by_cases h2 : (globAt (wChdir w0 odf_dir) odf_dir
      (fun n => pyStartsWith n "MANIFEST")).isEmpty = true
  case pos =>
    simp only [h2, if_true, errR]
    exact ⟨fun _ => ⟨rfl, by simp⟩, fun hm => absurd hm (by simp),
      fun hm => absurd hm (by simp)⟩
  case neg =>
  simp only [h2, Bool.false_eq_true, if_false]
  set wA := wSetEnv (wChdir w0 odf_dir) "SAS_ODF" (renderPath odf_dir) with hwA
  set wB := if isRun then wA else if dirEx wA work_dir then wA else wMkdir wA work_dir with hwB
  by_cases h3 : dirEx wB work_dir = true
  case neg =>
    simp only [h3, Bool.false_eq_true, not_false_iff, if_true, errR]
    exact ⟨fun _ => ⟨rfl, by simp⟩, fun hm => absurd hm (by simp),
      fun hm => absurd hm (by simp)⟩
  case pos =>
  simp only [h3, not_true, if_false]
  set wC := wAddFilesAt (wChdir wB work_dir) work_dir (orc.outOf (cifbuildCmd co)) with hwC
  by_cases h4 : orc.rcOf (cifbuildCmd co) ≠ 0
  case pos =>
    simp only [if_pos h4]
    exact ⟨fun _ => ⟨rfl, by simp [hne]⟩,
      fun hm => absurd (List.mem_singleton.mp hm) hne,
      fun hm _ => absurd (List.mem_singleton.mp hm) hne⟩
  case neg =>
  have h4eq : orc.rcOf (cifbuildCmd co) = 0 := not_not.mp h4
  simp only [if_neg h4]
  by_cases h5 : fileExAt wC work_dir "ccf.cif" = true
  case neg =>
    simp only [h5, Bool.false_eq_true, not_false_iff, if_true]
    exact ⟨fun hq => absurd h4eq hq,
      fun hm => absurd (List.mem_singleton.mp hm) hne,
      fun hm _ => absurd (List.mem_singleton.mp hm) hne⟩
  case pos =>
  simp only [h5, not_true, if_false]
  by_cases h6 : (isRun && optTruthy oo) = true
  case pos =>
    simp only [h6, if_true]
    exact ⟨fun hq => absurd h4eq hq,
      fun hm => absurd (List.mem_singleton.mp hm) hne,
      fun hm _ => absurd (List.mem_singleton.mp hm) hne⟩
  case neg =>
  simp only [h6, Bool.false_eq_true, if_false]
  by_cases h7 : orc.rcOf (odfingestCmd oo) ≠ 0
  case pos =>
    simp only [if_pos h7]
    exact ⟨fun hq => absurd h4eq hq,
      fun _ => ⟨h4eq, [], [Act.invoke (odfingestCmd oo)], rfl, by simp⟩,
      fun _ _ => ⟨_, rfl⟩⟩
  case neg =>
  simp only [if_neg h7]
  cases hglob : globAt (wAddFilesAt (wSetEnv wC "SAS_CCF"
      (renderPath (pj work_dir "ccf.cif"))) work_dir (orc.outOf (odfingestCmd oo)))
      work_dir (fun n => pyEndsWith n "SUM.SAS") with
  | nil =>
    simp only [hglob]
    exact ⟨fun hq => absurd h4eq hq,
      fun _ => ⟨h4eq, [], [Act.invoke (odfingestCmd oo)], rfl, by simp⟩,
      fun _ hq => absurd (not_not.mp h7) hq⟩
  | cons f rest =>
    simp only [hglob]
    cases hpm : sumSasPathMatch (renderPath odf_dir) f.lines with
    | some e =>
      simp only [hpm]
      exact ⟨fun hq => absurd h4eq hq,
        fun _ => ⟨h4eq, [], [Act.invoke (odfingestCmd oo)], rfl, by simp⟩,
        fun _ hq => absurd (not_not.mp h7) hq⟩
    | none =>
      simp only [hpm]
      exact ⟨fun hq => absurd h4eq hq,
        fun _ => ⟨h4eq, [], [Act.invoke (odfingestCmd oo)], rfl, by simp⟩,
        fun _ hq => absurd (not_not.mp h7) hq⟩

/-- A zero-cost oracle whose cifbuild exits nonzero. -/
def orcCifFails : Oracle :=
  ⟨fun _ => 1, fun _ => [], fun _ _ => [], fun _ => [], fun _ => [],
   fun _ => 0, fun _ => [], fun _ => [], ([], []), fun _ => none⟩

/-- Witness for C2: with an oracle whose cifbuild exits with code 1, the
chain ends in an error and odfingest is never invoked. -/
theorem chainPart_exit_code_chain_witness :
    ((chainPart orcCifFails false none none ["d", "ODF"] ["d", "work"]
        (World.mk [] [] [["d", "ODF"], ["d", "work"]]
          [FileEnt.mk ["d", "ODF"] "MANIFEST.001" []])).1).isErr = true
    ∧ Act.invoke (odfingestCmd none)
        ∉ (chainPart orcCifFails false none none ["d", "ODF"] ["d", "work"]
            (World.mk [] [] [["d", "ODF"], ["d", "work"]]
              [FileEnt.mk ["d", "ODF"] "MANIFEST.001" []])).2 :=
  (chainPart_exit_code_chain orcCifFails false none none ["d", "ODF"] ["d", "work"]
      (World.mk [] [] [["d", "ODF"], ["d", "work"]]
        [FileEnt.mk ["d", "ODF"] "MANIFEST.001" []])).1 (by decide)

theorem anyNewFiles (d : List String) (n : String)
    (fs : List (String × List String)) :
    ((fs.map (fun nf => FileEnt.mk d nf.1 nf.2)).any
        (fun f => f.dir == d && f.name == n))
      = fs.any (fun nf => nf.1 == n) := by
  induction fs with
  | nil => rfl
  | cons nf rest ih => simp [List.any_cons, ih]

theorem filterNewFiles (d : List String) (p : String → Bool)
    (fs : List (String × List String)) :
    (fs.map (fun nf => FileEnt.mk d nf.1 nf.2)).filter
        (fun f => f.dir == d && p f.name)
      = (fs.filter (fun nf => p nf.1)).map (fun nf => FileEnt.mk d nf.1 nf.2) := by
  induction fs with
  | nil => rfl
  | cons nf rest ih =>
    simp only [List.map_cons, List.filter_cons, beq_self_eq_true, Bool.true_and]
    by_cases hp : p nf.1 = true
    · simp [hp, ih]
    · simp [hp, ih]

theorem fileExAt_wAddFilesAt_self (w : World) (d : List String)
    (fs : List (String × List String)) (n : String) :
    fileExAt (wAddFilesAt w d fs) d n
      = (fileExAt w d n || fs.any (fun nf => nf.1 == n)) := by
  simp only [fileExAt, wAddFilesAt, List.any_append]
  rw [anyNewFiles]

theorem globAt_wAddFilesAt_self (w : World) (d : List String)
    (fs : List (String × List String)) (p : String → Bool) :
    globAt (wAddFilesAt w d fs) d p
      = globAt w d p
        ++ (fs.filter (fun nf => p nf.1)).map (fun nf => FileEnt.mk d nf.1 nf.2) := by
  simp only [globAt, wAddFilesAt, List.filter_append]
  rw [filterNewFiles]

/-- C3: in the chain, after cifbuild exits zero the existence of
`ccf.cif` in the work directory is checked and a missing file terminates
the run with an error (the IndexError from subscripting the empty glob
result) before odfingest; likewise, after odfingest exits zero a missing
`*SUM.SAS` file terminates the run with an error. -/
theorem chainPart_validates_outputs (orc : Oracle) (isRun : Bool)
    (co oo : Option String) (odf_dir work_dir : List String) (w0 : World) :
    (orc.rcOf (cifbuildCmd co) = 0 →
      (∀ nf ∈ orc.outOf (cifbuildCmd co), nf.1 ≠ "ccf.cif") →
      fileExAt w0 work_dir "ccf.cif" = false →
      Act.invoke (cifbuildCmd co) ∈ (chainPart orc isRun co oo odf_dir work_dir w0).2 →
      (∃ w, (chainPart orc isRun co oo odf_dir work_dir w0).1
          = Outcome.err Err.indexError w)
      ∧ Act.invoke (odfingestCmd oo) ∉ (chainPart orc isRun co oo odf_dir work_dir w0).2)
    ∧ (orc.rcOf (odfingestCmd oo) = 0 →
      (∀ nf ∈ orc.outOf (cifbuildCmd co), pyEndsWith nf.1 "SUM.SAS" = false) →
      (∀ nf ∈ orc.outOf (odfingestCmd oo), pyEndsWith nf.1 "SUM.SAS" = false) →
      (∀ f ∈ w0.files, f.dir = work_dir → pyEndsWith f.name "SUM.SAS" = false) →
      Act.invoke (odfingestCmd oo) ∈ (chainPart orc isRun co oo odf_dir work_dir w0).2 →
      ∃ w, (chainPart orc isRun co oo odf_dir work_dir w0).1
        = Outcome.err Err.indexError w) := by
  have hne : Act.invoke (odfingestCmd oo) ≠ Act.invoke (cifbuildCmd co) := by
    intro h
    exact absurd (Act.invoke.inj h).symm (cifbuild_ne_odfingest co oo)
  simp only [chainPart]
  by_cases h1 : dirEx w0 odf_dir = true
  case neg =>
    simp only [h1, Bool.false_eq_true, not_false_iff, if_true, errR]
    exact ⟨fun _ _ _ hin => absurd hin (by simp),
      fun _ _ _ _ hin => absurd hin (by simp)⟩
  case pos =>
  simp only [h1, not_true, if_false]
  by_cases h2 : (globAt (wChdir w0 odf_dir) odf_dir
      (fun n => pyStartsWith n "MANIFEST")).isEmpty = true
  case pos =>
    simp only [h2, if_true, errR]
    exact ⟨fun _ _ _ hin => absurd hin (by simp),
      fun _ _ _ _ hin => absurd hin (by simp)⟩
  case neg =>
  simp only [h2, Bool.false_eq_true, if_false]
  set wA := wSetEnv (wChdir w0 odf_dir) "SAS_ODF" (renderPath odf_dir) with hwA
  set wB := if isRun then wA else if dirEx wA work_dir then wA else wMkdir wA work_dir with hwB
  have hfilesB : wB.files = w0.files := by
    rw [hwB]
    split
    · rfl
    · split <;> rfl
  by_cases h3 : dirEx wB work_dir = true
  case neg =>
    simp only [h3, Bool.false_eq_true, not_false_iff, if_true, errR]
    exact ⟨fun _ _ _ hin => absurd hin (by simp),
      fun _ _ _ _ hin => absurd hin (by simp)⟩
  case pos =>
  simp only [h3, not_true, if_false]
  set wC := wAddFilesAt (wChdir wB work_dir) work_dir (orc.outOf (cifbuildCmd co)) with hwC
  by_cases h4 : orc.rcOf (cifbuildCmd co) ≠ 0
  case pos =>
    simp only [if_pos h4]
    exact ⟨fun h0 _ _ _ => absurd h0 h4,
      fun _ _ _ _ hin => absurd (List.mem_singleton.mp hin) hne⟩
  case neg =>
  have h4eq : orc.rcOf (cifbuildCmd co) = 0 := not_not.mp h4
  simp only [if_neg h4]
  by_cases h5 : fileExAt wC work_dir "ccf.cif" = true
  case neg =>
    simp only [h5, Bool.false_eq_true, not_false_iff, if_true]
    exact ⟨fun _ _ _ _ => ⟨⟨_, rfl⟩, fun hm => absurd (List.mem_singleton.mp hm) hne⟩,
      fun _ _ _ _ hin => absurd (List.mem_singleton.mp hin) hne⟩
  case pos =>
  simp only [h5, not_true, if_false]
  have hccfContr : ∀ (h0 : orc.rcOf (cifbuildCmd co) = 0),
      (∀ nf ∈ orc.outOf (cifbuildCmd co), nf.1 ≠ "ccf.cif") →
      fileExAt w0 work_dir "ccf.cif" = false → False := by
    intro _ ho hw
    have hfB : fileExAt (wChdir wB work_dir) work_dir "ccf.cif" = false := by
      simp only [fileExAt, wChdir, hfilesB]
      exact hw
    rw [hwC, fileExAt_wAddFilesAt_self, hfB, Bool.false_or] at h5
    rcases List.any_eq_true.mp h5 with ⟨nf, hmem, hq⟩
    exact absurd (by simpa using hq) (ho nf hmem)
  by_cases h6 : (isRun && optTruthy oo) = true
  case pos =>
    simp only [h6, if_true]
    exact ⟨fun h0 ho hw _ => absurd (hccfContr h0 ho hw) not_false,
      fun _ _ _ _ hin => absurd (List.mem_singleton.mp hin) hne⟩
  case neg =>
  simp only [h6, Bool.false_eq_true, if_false]
  by_cases h7 : orc.rcOf (odfingestCmd oo) ≠ 0
  case pos =>
    simp only [if_pos h7]
    exact ⟨fun h0 ho hw _ => absurd (hccfContr h0 ho hw) not_false,
      fun h0o _ _ _ _ => absurd h0o h7⟩
  case neg =>
  simp only [if_neg h7]
  have hsumEmpty : ∀ (hoc : ∀ nf ∈ orc.outOf (cifbuildCmd co),
        pyEndsWith nf.1 "SUM.SAS" = false)
      (hoo : ∀ nf ∈ orc.outOf (odfingestCmd oo), pyEndsWith nf.1 "SUM.SAS" = false)
      (hw : ∀ f ∈ w0.files, f.dir = work_dir → pyEndsWith f.name "SUM.SAS" = false),
      globAt (wAddFilesAt (wSetEnv wC "SAS_CCF" (renderPath (pj work_dir "ccf.cif")))
          work_dir (orc.outOf (odfingestCmd oo))) work_dir
        (fun n => pyEndsWith n "SUM.SAS") = [] := by
    intro hoc hoo hw
    have hstep : globAt (wSetEnv wC "SAS_CCF" (renderPath (pj work_dir "ccf.cif")))
        work_dir (fun n => pyEndsWith n "SUM.SAS")
        = globAt wC work_dir (fun n => pyEndsWith n "SUM.SAS") := rfl
    rw [globAt_wAddFilesAt_self]
    rw [hstep, hwC, globAt_wAddFilesAt_self]
    have hg0 : globAt (wChdir wB work_dir) work_dir
        (fun n => pyEndsWith n "SUM.SAS") = [] := by
      simp only [globAt, wChdir, hfilesB]
      rw [List.filter_eq_nil_iff]
      intro f hf
      simp only [Bool.and_eq_true, beq_iff_eq, not_and]
      intro hd
      simp [hw f hf hd]
    have hg1 : (orc.outOf (cifbuildCmd co)).filter
        (fun nf => pyEndsWith nf.1 "SUM.SAS") = [] := by
      rw [List.filter_eq_nil_iff]
      intro nf hnf
      simp [hoc nf hnf]
    have hg2 : (orc.outOf (odfingestCmd oo)).filter
        (fun nf => pyEndsWith nf.1 "SUM.SAS") = [] := by
      rw [List.filter_eq_nil_iff]
      intro nf hnf
      simp [hoo nf hnf]
    rw [hg0, hg1, hg2]
    rfl
  cases hglob : globAt (wAddFilesAt (wSetEnv wC "SAS_CCF"
      (renderPath (pj work_dir "ccf.cif"))) work_dir (orc.outOf (odfingestCmd oo)))
      work_dir (fun n => pyEndsWith n "SUM.SAS") with
  | nil =>
    simp only [hglob]
    exact ⟨fun h0 ho hw _ => absurd (hccfContr h0 ho hw) not_false,
      fun _ _ _ _ _ => ⟨_, rfl⟩⟩
  | cons f rest =>
    refine ⟨fun h0 ho hw _ => absurd (hccfContr h0 ho hw) not_false,
      fun _ hoc hoo hw _ => ?_⟩
    rw [hsumEmpty hoc hoo hw] at hglob
    exact absurd hglob.symm (List.cons_ne_nil f rest)

/-- An oracle whose commands all exit zero and write nothing. -/
def orcSilent : Oracle :=
  ⟨fun _ => 0, fun _ => [], fun _ _ => [], fun _ => [], fun _ => [],
   fun _ => 0, fun _ => [], fun _ => [], ([], []), fun _ => none⟩

/-- Witness for C3: cifbuild exits zero but writes no `ccf.cif`, so the
chain stops with the IndexError of the empty glob and odfingest never
runs. -/
theorem chainPart_validates_outputs_witness :
    (∃ w, (chainPart orcSilent false none none ["d", "ODF"] ["d", "work"]
        (World.mk [] [] [["d", "ODF"], ["d", "work"]]
          [FileEnt.mk ["d", "ODF"] "MANIFEST.001" []])).1
      = Outcome.err Err.indexError w)
    ∧ Act.invoke (odfingestCmd none)
        ∉ (chainPart orcSilent false none none ["d", "ODF"] ["d", "work"]
            (World.mk [] [] [["d", "ODF"], ["d", "work"]]
              [FileEnt.mk ["d", "ODF"] "MANIFEST.001" []])).2 :=
  (chainPart_validates_outputs orcSilent false none none ["d", "ODF"] ["d", "work"]
      (World.mk [] [] [["d", "ODF"], ["d", "work"]]
        [FileEnt.mk ["d", "ODF"] "MANIFEST.001" []])).1 rfl
    (fun nf hnf => absurd hnf (List.not_mem_nil nf)) rfl (by decide)

def Outcome.errOf : Outcome → Option Err
  | Outcome.ok _ => none
  | Outcome.err e _ => some e

/-- An oracle whose esa download delivers a tar holding one encrypted
file. -/
def orcEncrypted : Oracle :=
  ⟨fun _ => 0, fun _ => [], fun _ _ => [("0123456789.tar.gz", [])],
   fun _ => [([], "secret.gpg", ["enc"])], fun _ => [],
   fun _ => 0, fun _ => [], fun _ => [], ([], []), fun _ => none⟩

/-- C6 (code bug): `download_data` is a module-level function, yet its
key-discovery code reads `self.data_dir`; so as soon as encrypted
`*.gpg` files are found and no `encryption_key` argument was given, a
NameError is raised — even though a unique key file
(`data/0123456789.key`) sits in the data directory and the claim says it
would be found and used for decryption. -/
theorem download_data_decrypt_nameError :
    ((download_data orcEncrypted "0123456789" ["data"] "ODF" none "esa"
        (World.mk [] [] [["data"]]
          [FileEnt.mk ["data"] "0123456789.key" ["KEY"]])).1).errOf
      = some Err.nameError := by
  decide

/-- C5 counterexample: a call of `download_data` with a repo string that
is none of esa, heasarc and sciserver returns successfully (no error),
yet the observation directory contains neither an `ODF` nor a `work`
subdirectory — only `working` — contradicting the claimed layout for
every successful call with level `'ODF'`. -/
theorem download_data_unknown_repo_layout :
    (download_data orcSilent "0123" ["data"] "ODF" none "unknown"
        (World.mk [] [] [["data"]] [])).1
      = Outcome.ok (World.mk [] []
          [["data", "0123", "working"], ["data", "0123"], ["data"]] [])
    ∧ dirEx (World.mk [] []
          [["data", "0123", "working"], ["data", "0123"], ["data"]] [])
        ["data", "0123", "ODF"] = false
    ∧ dirEx (World.mk [] []
          [["data", "0123", "working"], ["data", "0123"], ["data"]] [])
        ["data", "0123", "work"] = false := by
  refine ⟨?_, by decide, by decide⟩
  decide

/-- C8: `download_data` takes no overwrite flag: whenever `data_dir/odfid`
exists it is deleted first (the trace starts with the rmtree), and it is
recreated with only the `working` subdirectory.  When `repo` is none of
esa, heasarc and sciserver, nothing is downloaded (the whole trace is the
single rmtree) and no error is raised, provided the caller's current
directory holds no stray `*.gpg`, `*.gz` or `*.TAR` files for the final
unpack globs to trip on. -/
theorem download_data_unconditional_delete (orc : Oracle) (odfid : String)
    (data_dir : List String) (level : String) (ek : Option String)
    (repo : String) (w0 : World)
    (hex : dirEx w0 (pj data_dir odfid) = true) :
    (∃ rest, (download_data orc odfid data_dir level ek repo w0).2
        = Act.rmtree (pj data_dir odfid) :: rest)
    ∧ (repo ∉ (["esa", "heasarc", "sciserver"] : List String) →
      (∀ f ∈ w0.files, isUnderB w0.cwd f.dir = true →
        pyEndsWith f.name ".gpg" = false ∧ pyEndsWith f.name ".gz" = false
          ∧ pyEndsWith f.name ".TAR" = false) →
      (∃ wf, (download_data orc odfid data_dir level ek repo w0).1 = Outcome.ok wf
        ∧ dirEx wf (pj data_dir odfid) = true
        ∧ dirEx wf (pj (pj data_dir odfid) "working") = true
        ∧ (∀ f ∈ wf.files, isUnderB (pj data_dir odfid) f.dir = false))
      ∧ (∀ a ∈ (download_data orc odfid data_dir level ek repo w0).2,
          a = Act.rmtree (pj data_dir odfid))) := by
  simp only [download_data, hex, if_true]
  set obs := pj data_dir odfid with hobs
  set w2 := wMkdir (wMkdir (wRmtree w0 obs) obs) (pj obs "working") with hw2
  constructor
  · -- the trace starts with the rmtree
    simp only [seqR]
    exact ⟨_, rfl⟩
  · intro hrepo hclean
    have h_esa : (repo == "esa") = false := by
      simp only [beq_eq_false_iff_ne, ne_eq]
      intro h; exact hrepo (by simp [h])
    have h_hea : (repo == "heasarc") = false := by
      simp only [beq_eq_false_iff_ne, ne_eq]
      intro h; exact hrepo (by simp [h])
    have h_sci : (repo == "sciserver") = false := by
      simp only [beq_eq_false_iff_ne, ne_eq]
      intro h; exact hrepo (by simp [h])
    have hbranch : downloadBranch orc odfid level obs (pj obs "ODF") (pj obs "PPS")
        repo w2 = okR w2 := by
      simp [downloadBranch, h_esa, h_hea, h_sci]
    have hcwd : w2.cwd = w0.cwd := rfl
    have hfiles2 : w2.files = w0.files.filter (fun f => !(isUnderB obs f.dir)) := rfl
    have hmem2 : ∀ f ∈ w2.files, f ∈ w0.files ∧ isUnderB obs f.dir = false := by
      intro f hf
      rw [hfiles2] at hf
      rcases List.mem_filter.mp hf with ⟨hm, hq⟩
      exact ⟨hm, by simpa using hq⟩
    have hglob : ∀ (p : String → Bool),
        (∀ f ∈ w0.files, isUnderB w0.cwd f.dir = true → p f.name = false) →
        globRec w2 w2.cwd p = [] := by
      intro p hp
      rw [globRec, List.filter_eq_nil_iff]
      intro f hf
      simp only [Bool.and_eq_true, not_and]
      intro hu
      rw [hcwd] at hu
      simp [hp f (hmem2 f hf).1 hu]
    have hgpg : globRec w2 w2.cwd (fun n => pyEndsWith n ".gpg") = [] :=
      hglob _ (fun f hf hu => (hclean f hf hu).1)
    have hgz : globRec w2 w2.cwd (fun n => pyEndsWith n ".gz") = [] :=
      hglob _ (fun f hf hu => (hclean f hf hu).2.1)
    have htar : globRec w2 w2.cwd (fun n => pyEndsWith n ".TAR") = [] :=
      hglob _ (fun f hf hu => (hclean f hf hu).2.2)
    have hdec : decryptPhaseDD orc ek w2 = okR w2 := by
      simp [decryptPhaseDD, hgpg]
    have hgzp : gzPhase orc w2 = okR w2 := by
      simp [gzPhase, hgz, gzLoop]
    have htarp : tarPhase orc (pj obs "ODF") w2 = okR w2 := by
      simp [tarPhase, htar, tarLoop]
    simp only [seqR, hbranch, okR, hdec, hgzp, htarp]
    refine ⟨⟨w2, rfl, ?_, ?_, ?_⟩, ?_⟩
    · simp [dirEx, hw2, wMkdir]
    · simp [dirEx, hw2, wMkdir]
    · intro f hf
      exact (hmem2 f hf).2
    · intro a ha
      simp only [List.append_nil, List.mem_singleton] at ha
      exact ha

/-- Witness for C8: a concrete call on an existing observation directory
and an unknown repo string. -/
theorem download_data_unconditional_delete_witness :
    ∃ rest, (download_data orcSilent "0123" ["data"] "ODF" none "nowhere"
        (World.mk [] [] [["data"], ["data", "0123"]]
          [FileEnt.mk ["data", "0123"] "old.fits" []])).2
      = Act.rmtree ["data", "0123"] :: rest :=
  (download_data_unconditional_delete orcSilent "0123" ["data"] "ODF" none "nowhere"
      (World.mk [] [] [["data"], ["data", "0123"]]
        [FileEnt.mk ["data", "0123"] "old.fits" []]) (by decide)).1

theorem dirEx_iff (w : World) (p : List String) : dirEx w p = true ↔ p ∈ w.dirs := by
  simp [dirEx, List.elem_iff]

theorem seqR_ok (r : RR) (f : World → RR) (wf : World)
    (h : (seqR r f).1 = Outcome.ok wf) :
    ∃ wm, r.1 = Outcome.ok wm ∧ (f wm).1 = Outcome.ok wf
      ∧ (seqR r f).2 = r.2 ++ (f wm).2 := by
  rcases r with ⟨o, t⟩
  cases o with
  | ok w => exact ⟨w, rfl, by simpa [seqR] using h, by simp [seqR]⟩
  | err e w => simp [seqR] at h

theorem decryptLoop_dirs (orc : Oracle) : ∀ (fs : List FileEnt) (w : World),
    (((decryptLoop orc fs w).1).world).dirs = w.dirs := by
  intro fs
  induction fs with
  | nil => intro w; rfl
  | cons f rest ih =>
    intro w
    simp only [decryptLoop]
    by_cases h1 : fileExAt w f.dir
        (String.mk (f.name.data.take (f.name.data.length - 4))) = true
    · simp only [h1, if_true]
      exact ih w
    · simp only [h1, Bool.false_eq_true, if_false]
      by_cases h2 : orc.gpgRc f.name ≠ 0
      · simp only [if_pos h2]
        rfl
      · simp only [if_neg h2]
        exact ih _

theorem readKeyAndDecrypt_dirs (orc : Oracle) (k : String) (fs : List FileEnt)
    (w : World) : (((readKeyAndDecrypt orc k fs w).1).world).dirs = w.dirs := by
  simp only [readKeyAndDecrypt]
  cases hf : findFileStr w k with
  | none => simp only [hf]; rfl
  | some f =>
    cases hl : f.lines with
    | nil => simp only [hf, hl]; rfl
    | cons l ls =>
      simp only [hf, hl]
      exact decryptLoop_dirs orc fs w

theorem decryptPhaseDD_dirs (orc : Oracle) (ek : Option String) (w : World) :
    (((decryptPhaseDD orc ek w).1).world).dirs = w.dirs := by
  simp only [decryptPhaseDD]
  by_cases h1 : (globRec w w.cwd (fun n => pyEndsWith n ".gpg")).isEmpty = true
  · simp only [h1, if_true]
    rfl
  · simp only [h1, Bool.false_eq_true, if_false]
    cases ek with
    | none => rfl
    | some key =>
      by_cases h2 : isfileStr w key = true
      · simp only [h2, if_true]
        exact readKeyAndDecrypt_dirs orc key _ w
      · simp only [h2, Bool.false_eq_true, if_false]
        exact decryptLoop_dirs orc _ w

theorem gzLoop_dirs (orc : Oracle) : ∀ (fs : List FileEnt) (w : World),
    (((gzLoop orc fs w).1).world).dirs = w.dirs := by
  intro fs
  induction fs with
  | nil => intro w; rfl
  | cons f rest ih =>
    intro w
    simp only [gzLoop]
    exact ih _

theorem tarLoop_dirs (orc : Oracle) (odf : List String) :
    ∀ (fs : List FileEnt) (w : World),
      (((tarLoop orc odf fs w).1).world).dirs = w.dirs := by
  intro fs
  induction fs with
  | nil => intro w; rfl
  | cons f rest ih =>
    intro w
    simp only [tarLoop]
    exact ih _

theorem gzPhase_dirs (orc : Oracle) (w : World) :
    (((gzPhase orc w).1).world).dirs = w.dirs := gzLoop_dirs orc _ w

theorem tarPhase_dirs (orc : Oracle) (odf : List String) (w : World) :
    (((tarPhase orc odf w).1).world).dirs = w.dirs := tarLoop_dirs orc odf _ w

/-- The post-download phases of `download_data` never change the
directory set. -/
theorem postPhases_dirs (orc : Oracle) (ek : Option String) (odf : List String)
    (w : World) (wf : World)
    (h : (seqR (decryptPhaseDD orc ek w)
        (fun w4 => seqR (gzPhase orc w4) (fun w5 => tarPhase orc odf w5))).1
      = Outcome.ok wf) :
    wf.dirs = w.dirs := by
  rcases seqR_ok _ _ _ h with ⟨w4, h4, h5, _⟩
  rcases seqR_ok _ _ _ h5 with ⟨w5, h6, h7, _⟩
  have d1 : w4.dirs = w.dirs := by
    have := decryptPhaseDD_dirs orc ek w
    rw [h4] at this
    exact this
  have d2 : w5.dirs = w4.dirs := by
    have := gzPhase_dirs orc w4
    rw [h6] at this
    exact this
  have d3 : wf.dirs = w5.dirs := by
    have := tarPhase_dirs orc odf w5
    rw [h7] at this
    exact this
  rw [d3, d2, d1]

theorem esaLoop_dirs_mono (orc : Oracle) (odfid : String)
    (obs odf pps : List String) : ∀ (levels : List String) (w w3 : World),
    (esaLoop orc odfid obs odf pps levels w).1 = Outcome.ok w3 →
    ∀ d ∈ w.dirs, d ∈ w3.dirs := by
  intro levels
  induction levels with
  | nil =>
    intro w w3 h d hd
    obtain rfl := Outcome.ok.inj h
    exact hd
  | cons levl rest ih =>
    intro w w3 h d hd
    simp only [esaLoop] at h
    by_cases hO : (levl == "ODF") = true
    · simp only [hO, if_true] at h
      by_cases hT : fileExAt (wMkdir (wAddFilesAt w obs (orc.dlOut odfid levl)) odf)
          obs (odfid ++ ".tar.gz") = true
      · simp only [hT, not_true, if_false] at h
        exact ih _ w3 h d (List.mem_cons_of_mem odf hd)
      · simp only [hT, Bool.false_eq_true, not_false_iff, if_true] at h
        exact absurd h (by simp)
    · simp only [hO, Bool.false_eq_true, if_false] at h
      by_cases hP : (levl == "PPS") = true
      · simp only [hP, if_true] at h
        by_cases hT : fileExAt (wMkdir (wAddFilesAt w obs (orc.dlOut odfid levl)) pps)
            obs (odfid ++ ".tar.gz") = true
        · simp only [hT, not_true, if_false, hO, Bool.false_eq_true] at h
          exact ih _ w3 h d (List.mem_cons_of_mem pps hd)
        · simp only [hT, Bool.false_eq_true, not_false_iff, if_true] at h
          exact absurd h (by simp)
      · simp only [hP, Bool.false_eq_true, if_false] at h
        by_cases hT : fileExAt (wAddFilesAt w obs (orc.dlOut odfid levl))
            obs (odfid ++ ".tar.gz") = true
        · simp only [hT, not_true, if_false, hO, hP, Bool.false_eq_true] at h
          exact ih _ w3 h d hd
        · simp only [hT, Bool.false_eq_true, not_false_iff, if_true] at h
          exact absurd h (by simp)

theorem esaLoop_ok_ODF (orc : Oracle) (odfid : String)
    (obs odf pps : List String) (rest : List String) (w w3 : World)
    (h : (esaLoop orc odfid obs odf pps ("ODF" :: rest) w).1 = Outcome.ok w3) :
    ∃ w2, (esaLoop orc odfid obs odf pps rest w2).1 = Outcome.ok w3
      ∧ w2.dirs = odf :: w.dirs
      ∧ (esaLoop orc odfid obs odf pps ("ODF" :: rest) w).2
          = Act.downloadReq odfid "ODF"
            :: Act.extractTar (odfid ++ ".tar.gz") odf
            :: Act.removeFile obs (odfid ++ ".tar.gz")
            :: (esaLoop orc odfid obs odf pps rest w2).2 := by
  have e1 : (("ODF" : String) == "ODF") = true := by decide
  simp only [esaLoop, e1, if_true] at h ⊢
  by_cases hT : fileExAt (wMkdir (wAddFilesAt w obs (orc.dlOut odfid "ODF")) odf)
      obs (odfid ++ ".tar.gz") = true
  · simp only [hT, not_true, if_false] at h ⊢
    exact ⟨_, h, rfl, rfl⟩
  · simp only [hT, Bool.false_eq_true, not_false_iff, if_true] at h
    exact absurd h (by simp)

theorem esaLoop_ok_PPS (orc : Oracle) (odfid : String)
    (obs odf pps : List String) (rest : List String) (w w3 : World)
    (h : (esaLoop orc odfid obs odf pps ("PPS" :: rest) w).1 = Outcome.ok w3) :
    ∃ w2, (esaLoop orc odfid obs odf pps rest w2).1 = Outcome.ok w3
      ∧ w2.dirs = pps :: w.dirs
      ∧ (esaLoop orc odfid obs odf pps ("PPS" :: rest) w).2
          = Act.downloadReq odfid "PPS"
            :: Act.extractTar (odfid ++ ".tar.gz") pps
            :: Act.removeFile obs (odfid ++ ".tar.gz")
            :: (esaLoop orc odfid obs odf pps rest w2).2 := by
  have e1 : (("PPS" : String) == "ODF") = false := by decide
  have e2 : (("PPS" : String) == "PPS") = true := by decide
  simp only [esaLoop, e1, e2, if_true, Bool.false_eq_true, if_false] at h ⊢
  by_cases hT : fileExAt (wMkdir (wAddFilesAt w obs (orc.dlOut odfid "PPS")) pps)
      obs (odfid ++ ".tar.gz") = true
  · simp only [hT, not_true, if_false] at h ⊢
    exact ⟨_, h, rfl, rfl⟩
  · simp only [hT, Bool.false_eq_true, not_false_iff, if_true] at h
    exact absurd h (by simp)

theorem seqR_trace_mem_left (r : RR) (f : World → RR) (a : Act) (ha : a ∈ r.2) :
    a ∈ (seqR r f).2 := by
  rcases r with ⟨o, t⟩
  cases o with
  | ok w => simp only [seqR]; exact List.mem_append_left _ ha
  | err e w => exact ha

theorem seqR_trace_mem_right (r : RR) (f : World → RR) (wm : World)
    (h : r.1 = Outcome.ok wm) (a : Act) (ha : a ∈ (f wm).2) :
    a ∈ (seqR r f).2 := by
  rcases r with ⟨o, t⟩
  cases o with
  | ok w =>
    obtain rfl := Outcome.ok.inj h
    simp only [seqR]
    exact List.mem_append_right _ ha
  | err e w => simp at h

theorem downloadBranch_esa (orc : Oracle) (odfid level : String)
    (obs odf pps : List String) (w : World) :
    downloadBranch orc odfid level obs odf pps "esa" w
      = esaLoop orc odfid obs odf pps
          (if level == "ALL" then ["ODF", "PPS"] else [level]) (wChdir w obs) := by
  simp [downloadBranch]

/-- C5 (amended): every successful `download_data` call against the esa
repository leaves `data_dir/odfid` with a `working` subdirectory, an
`ODF` subdirectory when the level is ODF or ALL and a `PPS` subdirectory
when the level is PPS or ALL, and the run extracted each downloaded
`<odfid>.tar.gz` into the matching subdirectory and removed the
archive. -/
theorem download_data_esa_layout (orc : Oracle) (odfid : String)
    (data_dir : List String) (level : String) (ek : Option String)
    (w0 wf : World)
    (hok : (download_data orc odfid data_dir level ek "esa" w0).1 = Outcome.ok wf) :
    dirEx wf (pj (pj data_dir odfid) "working") = true
    ∧ ((level = "ODF" ∨ level = "ALL") →
        dirEx wf (pj (pj data_dir odfid) "ODF") = true
        ∧ Act.extractTar (odfid ++ ".tar.gz") (pj (pj data_dir odfid) "ODF")
            ∈ (download_data orc odfid data_dir level ek "esa" w0).2
        ∧ Act.removeFile (pj data_dir odfid) (odfid ++ ".tar.gz")
            ∈ (download_data orc odfid data_dir level ek "esa" w0).2)
    ∧ ((level = "PPS" ∨ level = "ALL") →
        dirEx wf (pj (pj data_dir odfid) "PPS") = true
        ∧ Act.extractTar (odfid ++ ".tar.gz") (pj (pj data_dir odfid) "PPS")
            ∈ (download_data orc odfid data_dir level ek "esa" w0).2
        ∧ Act.removeFile (pj data_dir odfid) (odfid ++ ".tar.gz")
            ∈ (download_data orc odfid data_dir level ek "esa" w0).2) := by
  simp only [download_data] at hok ⊢
  obtain ⟨w1, hst1, h2, htr⟩ := seqR_ok _ _ _ hok
  obtain ⟨w3, hbr, hph, htr2⟩ := seqR_ok _ _ _ h2
  rw [downloadBranch_esa] at hbr
  have hwfdirs : wf.dirs = w3.dirs := postPhases_dirs orc ek _ w3 wf hph
  have hmem_of_w3 : ∀ d, d ∈ w3.dirs → dirEx wf d = true := by
    intro d hd
    rw [dirEx_iff, hwfdirs]
    exact hd
  refine ⟨?_, ?_, ?_⟩
  · -- the working directory survives into the final state
    refine hmem_of_w3 _ (esaLoop_dirs_mono orc odfid _ _ _ _ _ w3 hbr _ ?_)
    simp [wChdir, wMkdir]
  · intro hlev
    rcases hlev with hl | hl
    · subst hl
      have e1 : (("ODF" : String) == "ALL") = false := by decide
      rw [e1] at hbr
      simp only [Bool.false_eq_true, if_false] at hbr
      obtain ⟨wodf, hrest, hdirs, htrE⟩ := esaLoop_ok_ODF orc odfid _ _ _ [] _ w3 hbr
      obtain rfl := Outcome.ok.inj hrest
      refine ⟨hmem_of_w3 _ (by rw [hdirs]; exact List.mem_cons_self _ _), ?_, ?_⟩
      · refine seqR_trace_mem_right _ _ w1 hst1 _ ?_
        refine seqR_trace_mem_left _ _ _ ?_
        rw [downloadBranch_esa, e1]
        simp only [Bool.false_eq_true, if_false]
        rw [htrE]
        simp
      · refine seqR_trace_mem_right _ _ w1 hst1 _ ?_
        refine seqR_trace_mem_left _ _ _ ?_
        rw [downloadBranch_esa, e1]
        simp only [Bool.false_eq_true, if_false]
        rw [htrE]
        simp
    · subst hl
      have e1 : (("ALL" : String) == "ALL") = true := by decide
      rw [e1] at hbr
      simp only [if_true] at hbr
      obtain ⟨wodf, hrest, hdirs, htrE⟩ :=
        esaLoop_ok_ODF orc odfid _ _ _ ["PPS"] _ w3 hbr
      obtain ⟨wpps, hrest2, hdirs2, htrE2⟩ :=
        esaLoop_ok_PPS orc odfid _ _ _ [] _ w3 hrest
      obtain rfl := Outcome.ok.inj hrest2
      refine ⟨hmem_of_w3 _ ?_, ?_, ?_⟩
      · rw [hdirs2, hdirs]
        exact List.mem_cons_of_mem _ (List.mem_cons_self _ _)
      · refine seqR_trace_mem_right _ _ w1 hst1 _ ?_
        refine seqR_trace_mem_left _ _ _ ?_
        rw [downloadBranch_esa, e1]
        simp only [if_true]
        rw [htrE]
        simp
      · refine seqR_trace_mem_right _ _ w1 hst1 _ ?_
        refine seqR_trace_mem_left _ _ _ ?_
        rw [downloadBranch_esa, e1]
        simp only [if_true]
        rw [htrE]
        simp
  · intro hlev
    rcases hlev with hl | hl
    · subst hl
      have e1 : (("PPS" : String) == "ALL") = false := by decide
      rw [e1] at hbr
      simp only [Bool.false_eq_true, if_false] at hbr
      obtain ⟨wpps, hrest, hdirs, htrE⟩ := esaLoop_ok_PPS orc odfid _ _ _ [] _ w3 hbr
      obtain rfl := Outcome.ok.inj hrest
      refine ⟨hmem_of_w3 _ (by rw [hdirs]; exact List.mem_cons_self _ _), ?_, ?_⟩
      · refine seqR_trace_mem_right _ _ w1 hst1 _ ?_
        refine seqR_trace_mem_left _ _ _ ?_
        rw [downloadBranch_esa, e1]
        simp only [Bool.false_eq_true, if_false]
        rw [htrE]
        simp
      · refine seqR_trace_mem_right _ _ w1 hst1 _ ?_
        refine seqR_trace_mem_left _ _ _ ?_
        rw [downloadBranch_esa, e1]
        simp only [Bool.false_eq_true, if_false]
        rw [htrE]
        simp
    · subst hl
      have e1 : (("ALL" : String) == "ALL") = true := by decide
      rw [e1] at hbr
      simp only [if_true] at hbr
      obtain ⟨wodf, hrest, hdirs, htrE⟩ :=
        esaLoop_ok_ODF orc odfid _ _ _ ["PPS"] _ w3 hbr
      obtain ⟨wpps, hrest2, hdirs2, htrE2⟩ :=
        esaLoop_ok_PPS orc odfid _ _ _ [] _ w3 hrest
      obtain rfl := Outcome.ok.inj hrest2
      refine ⟨hmem_of_w3 _ ?_, ?_, ?_⟩
      · rw [hdirs2]
        exact List.mem_cons_self _ _
      · refine seqR_trace_mem_right _ _ w1 hst1 _ ?_
        refine seqR_trace_mem_left _ _ _ ?_
        rw [downloadBranch_esa, e1]
        simp only [if_true]
        rw [htrE, htrE2]
        simp
      · refine seqR_trace_mem_right _ _ w1 hst1 _ ?_
        refine seqR_trace_mem_left _ _ _ ?_
        rw [downloadBranch_esa, e1]
        simp only [if_true]
        rw [htrE, htrE2]
        simp

/-- An oracle whose esa download delivers a tar holding one plain data
file. -/
def orcEsaTar : Oracle :=
  ⟨fun _ => 0, fun _ => [], fun _ _ => [("0123.tar.gz", [])],
   fun _ => [([], "DATA.FIT", [])], fun _ => [],
   fun _ => 0, fun _ => [], fun _ => [], ([], []), fun _ => none⟩

/-- Witness for C5: a concrete successful esa download at level ODF. -/
theorem download_data_esa_layout_witness :
    dirEx (((download_data orcEsaTar "0123" ["data"] "ODF" none "esa"
        (World.mk [] [] [["data"]] [])).1).world)
      ["data", "0123", "working"] = true
    ∧ dirEx (((download_data orcEsaTar "0123" ["data"] "ODF" none "esa"
        (World.mk [] [] [["data"]] [])).1).world)
      ["data", "0123", "ODF"] = true
    ∧ Act.extractTar "0123.tar.gz" ["data", "0123", "ODF"]
        ∈ (download_data orcEsaTar "0123" ["data"] "ODF" none "esa"
            (World.mk [] [] [["data"]] [])).2 :=
  have T := download_data_esa_layout orcEsaTar "0123" ["data"] "ODF" none
    (World.mk [] [] [["data"]] [])
    (((download_data orcEsaTar "0123" ["data"] "ODF" none "esa"
        (World.mk [] [] [["data"]] [])).1).world)
    (by decide)
  ⟨T.1, (T.2.1 (Or.inl rfl)).1, (T.2.1 (Or.inl rfl)).2.1⟩

theorem pj_ne (p : List String) (c : String) : pj p c ≠ p := by
  intro h
  have h2 := congrArg List.length h
  simp [pj] at h2

theorem dirEx_wMkdir_ne (w : World) (d p : List String) (h : p ≠ d) :
    dirEx (wMkdir w d) p = dirEx w p := by
  by_cases hm : p ∈ w.dirs
  · rw [(dirEx_iff w p).mpr hm]
    exact (dirEx_iff (wMkdir w d) p).mpr (by simp [wMkdir, hm])
  · have e2 : dirEx w p = false := by
      cases hq : dirEx w p
      · rfl
      · exact absurd ((dirEx_iff w p).mp hq) hm
    rw [e2]
    cases hq : dirEx (wMkdir w d) p
    · rfl
    · have h3 := (dirEx_iff (wMkdir w d) p).mp hq
      simp only [wMkdir, List.mem_cons] at h3
      rcases h3 with h3 | h3
      · exact absurd h3 h
      · exact absurd h3 hm

/-- C9: when `<workdir>/<odfid>` already exists and `overwrite` is false,
`run` raises an exception and performs no action at all: the action trace
is empty (nothing is removed, downloaded or invoked), the files are
untouched, no directory is removed and the environment is unchanged —
`run` never falls back to searching the existing tree the way
`ODF.setodf` does.  (Every earlier argument or environment check that
fails also raises before touching the observation tree, so the
conclusion needs no hypotheses about the environment.) -/
theorem run_no_overwrite_refuses (orc : Oracle) (a : RunArgs) (w0 : World)
    (odfid : String) (hodf : a.odfid = some odfid) (hne : odfid ≠ "")
    (how : a.overwrite = false)
    (hex : dirEx w0 (pj a.datadir odfid) = true) :
    ∃ e w2, (run orc a w0).1 = Outcome.err e w2
      ∧ w2.files = w0.files
      ∧ w2.env = w0.env
      ∧ (∀ d ∈ w0.dirs, d ∈ w2.dirs)
      ∧ (run orc a w0).2 = [] := by
  have htruthy : (match a.odfid with | some s => s != "" | none => false) = true := by
    rw [hodf]
    simp [hne]
  simp only [run, htruthy]
  simp only [Bool.not_true, Bool.false_and, Bool.false_eq_true, if_false,
    Bool.true_and]
  by_cases hsas : (optTruthy a.sas_ccf || optTruthy a.sas_odf) = true
  · simp only [hsas, if_true, errR]
    exact ⟨_, w0, rfl, rfl, rfl, fun d hd => hd, by trivial⟩
  · simp only [hsas, Bool.false_eq_true, if_false]
    by_cases hsf : (a.sasfiles && (!optTruthy a.sas_ccf && !optTruthy a.sas_odf)) = true
    · simp only [hsf, if_true, errR]
      exact ⟨_, w0, rfl, rfl, rfl, fun d hd => hd, by trivial⟩
    · simp only [hsf, Bool.false_eq_true, if_false]
      by_cases hlh : envTruthy w0 "LHEASOFT" = true
      case neg =>
        simp only [hlh, Bool.false_eq_true, not_false_iff, if_true, errR]
        exact ⟨_, w0, rfl, rfl, rfl, fun d hd => hd, by trivial⟩
      case pos =>
      simp only [hlh, not_true, if_false]
      by_cases hsd : envTruthy w0 "SAS_DIR" = true
      case neg =>
        simp only [hsd, Bool.false_eq_true, not_false_iff, if_true, errR]
        exact ⟨_, w0, rfl, rfl, rfl, fun d hd => hd, by trivial⟩
      case pos =>
      simp only [hsd, not_true, if_false]
      by_cases hsc : envTruthy w0 "SAS_CCFPATH" = true
      case neg =>
        simp only [hsc, Bool.false_eq_true, not_false_iff, if_true, errR]
        exact ⟨_, w0, rfl, rfl, rfl, fun d hd => hd, by trivial⟩
      case pos =>
      simp only [hsc, not_true, if_false]
      set w1 := if dirEx w0 a.datadir then w0 else wMkdir w0 a.datadir with hw1
      have hfiles1 : (wChdir w1 a.datadir).files = w0.files := by
        rw [hw1]; split <;> rfl
      have henv1 : (wChdir w1 a.datadir).env = w0.env := by
        rw [hw1]; split <;> rfl
      have hdirs1 : ∀ d ∈ w0.dirs, d ∈ (wChdir w1 a.datadir).dirs := by
        intro d hd
        rw [hw1]
        split
        · exact hd
        · exact List.mem_cons_of_mem _ hd
      have hex2 : dirEx (wChdir w1 a.datadir) (pj a.datadir odfid) = true := by
        rw [hw1]
        split
        · exact hex
        · rw [show dirEx (wChdir (wMkdir w0 a.datadir) a.datadir)
              (pj a.datadir odfid) = dirEx (wMkdir w0 a.datadir)
              (pj a.datadir odfid) from rfl,
            dirEx_wMkdir_ne w0 a.datadir (pj a.datadir odfid) (pj_ne _ _)]
          exact hex
      by_cases hlev : (a.level == "ODF" || a.level == "PPS" || a.level == "ALL") = true
      case neg =>
        simp only [hlev, Bool.false_eq_true, not_false_iff, if_true, errR]
        exact ⟨_, wChdir w1 a.datadir, rfl, hfiles1, henv1, hdirs1, by trivial⟩
      case pos =>
      simp only [hlev, not_true, if_false, if_true]
      have hgetD : a.odfid.getD "" = odfid := by rw [hodf]; rfl
      simp only [hgetD, hex2, if_true, how, Bool.false_eq_true, if_false, errR, seqR]
      exact ⟨_, wChdir w1 a.datadir, rfl, hfiles1, henv1, hdirs1, by trivial⟩

/-- Witness for C9: a concrete refusal on an existing observation
directory. -/
theorem run_no_overwrite_refuses_witness :
    ∃ e w2, (run orcSilent
        (RunArgs.mk (some "0123") ["d"] "ODF" false none none none none none
          false "esa")
        (World.mk [] [] [["d"], ["d", "0123"]] [])).1 = Outcome.err e w2
      ∧ w2.files = (World.mk [] [] [["d"], ["d", "0123"]] []).files
      ∧ w2.env = (World.mk [] [] [["d"], ["d", "0123"]] []).env
      ∧ (∀ d ∈ (World.mk [] [] [["d"], ["d", "0123"]] []).dirs, d ∈ w2.dirs)
      ∧ (run orcSilent
          (RunArgs.mk (some "0123") ["d"] "ODF" false none none none none none
            false "esa")
          (World.mk [] [] [["d"], ["d", "0123"]] [])).2 = [] :=
  run_no_overwrite_refuses orcSilent
    (RunArgs.mk (some "0123") ["d"] "ODF" false none none none none none
      false "esa")
    (World.mk [] [] [["d"], ["d", "0123"]] []) "0123" rfl (by decide) rfl
    (by decide)

theorem wGetEnv_wDelEnv_ne (env : List (String × String)) (k k2 : String)
    (h : k2 ≠ k) : wGetEnv (wDelEnv env k) k2 = wGetEnv env k2 := by
  induction env with
  | nil => rfl
  | cons p rest ih =>
    by_cases hp : p.1 = k
    · have h2 : ¬ p.1 = k2 := by rw [hp]; exact Ne.symm h
      simp [wDelEnv, wGetEnv, hp, h2, ih, h, Ne.symm h]
    · by_cases hq : p.1 = k2
      · simp [wDelEnv, wGetEnv, hp, hq, h, Ne.symm h]
      · simp [wDelEnv, wGetEnv, hp, hq, ih, h, Ne.symm h]

theorem sumSasPathCheckReuse_congr (w w2 : World) (hf : w.files = w2.files)
    (hd : w.dirs = w2.dirs) :
    ∀ lines, sumSasPathCheckReuse w lines = sumSasPathCheckReuse w2 lines := by
  intro lines
  induction lines with
  | nil => rfl
  | cons l ls ih =>
    simp only [sumSasPathCheckReuse, existsPathStr, hf, hd, ih]

/-- C1: with LHEASOFT, SAS_DIR and SAS_CCFPATH set (and an existing data
directory, no explicit `sas_ccf`/`sas_odf` arguments and a valid level),
the reuse/re-download decision of `ODF.setodf` is driven by the presence
of `data_dir/odfid` and the `overwrite` flag: when the directory is
absent the data is downloaded (`download_data` is called); when it is
present and `overwrite` is false nothing is removed or downloaded (the
whole action trace is empty), the tree is searched and `SAS_CCF` and
`SAS_ODF` are set to the `ccf.cif` and `*SUM.SAS` files found (here under
the scenario hypotheses that the searches succeed and the summary file
passes its PATH check) and `setodf` returns; when it is present and
`overwrite` is true the directory is removed first and the data is then
downloaded. -/
theorem setodf_reuse_or_download (orc : Oracle) (a : SetodfArgs) (w0 : World)
    (hlh : envTruthy w0 "LHEASOFT" = true)
    (hsd : envTruthy w0 "SAS_DIR" = true)
    (hscp : envTruthy w0 "SAS_CCFPATH" = true)
    (hdd : dirEx w0 a.data_dir = true)
    (hccfArg : a.sas_ccf = none) (hodfArg : a.sas_odf = none)
    (hlev : a.level = "ODF" ∨ a.level = "PPS" ∨ a.level = "ALL") :
    (dirEx w0 (pj a.data_dir a.odfid) = false →
      Act.callDownloadData a.odfid a.level ∈ (setodf orc a w0).2)
    ∧ (dirEx w0 (pj a.data_dir a.odfid) = true → a.overwrite = false →
      ∀ fc fo fo2,
        walkFindLast w0 (pj a.data_dir a.odfid) "ccf.cif" = some fc →
        walkFindLast w0 (pj a.data_dir a.odfid) "SUM.SAS" = some fo →
        findFileStr w0 (renderFile fo) = some fo2 →
        sumSasPathCheckReuse w0 fo2.lines = none →
        ∃ wf, (setodf orc a w0).1 = Outcome.ok wf
          ∧ wGetEnv wf.env "SAS_CCF" = some (renderFile fc)
          ∧ wGetEnv wf.env "SAS_ODF" = some (renderFile fo)
          ∧ (setodf orc a w0).2 = [])
    ∧ (dirEx w0 (pj a.data_dir a.odfid) = true → a.overwrite = true →
      ∃ t2, (setodf orc a w0).2 = Act.rmtree (pj a.data_dir a.odfid) :: t2
        ∧ Act.callDownloadData a.odfid a.level ∈ t2) := by
  have hlevB : (a.level == "ODF" || a.level == "PPS" || a.level == "ALL") = true := by
    rcases hlev with h | h | h <;> simp [h]
  simp only [setodf, hlh, hsd, hscp, not_true, if_false, hdd, if_true]
  refine ⟨?_, ?_, ?_⟩
  · intro hnex
    have hnex2 : dirEx (wChdir w0 a.data_dir) (pj a.data_dir a.odfid) = false := hnex
    simp only [hnex2, Bool.false_and, Bool.false_eq_true, if_false]
    refine seqR_trace_mem_right _ _ (wChdir w0 a.data_dir) ?_ _ ?_
    · simp [hnex2, okR]
    · simp only [hlevB, not_true, if_false]
      refine seqR_trace_mem_left _ _ _ ?_
      simp
  · intro hex how fc fo fo2 hfc hfo hfind hpath
    have hex2 : dirEx (wChdir w0 a.data_dir) (pj a.data_dir a.odfid) = true := hex
    simp only [hex2, how, Bool.not_false, Bool.true_and, if_true]
    simp only [setodfReuse, hccfArg, hodfArg]
    have hfc2 : walkFindLast (wChdir w0 a.data_dir) (pj a.data_dir a.odfid)
        "ccf.cif" = some fc := hfc
    have hfo2 : walkFindLast (wSetEnv (wChdir w0 a.data_dir) "SAS_CCF"
        (renderFile fc)) (pj a.data_dir a.odfid) "SUM.SAS" = some fo := hfo
    have hfind2 : findFileStr (wSetEnv (wChdir w0 a.data_dir) "SAS_CCF"
        (renderFile fc)) (renderFile fo) = some fo2 := hfind
    have hpath2 : sumSasPathCheckReuse (wSetEnv (wChdir w0 a.data_dir) "SAS_CCF"
        (renderFile fc)) fo2.lines = none :=
      (sumSasPathCheckReuse_congr
        (wSetEnv (wChdir w0 a.data_dir) "SAS_CCF" (renderFile fc)) w0 rfl rfl
        fo2.lines).trans hpath
    simp only [hfc2, Option.map_some', hfo2, hfind2, hpath2, okR]
    refine ⟨_, rfl, ?_, ?_, by trivial⟩
    · have henv : (if dirEx (wSetEnv (wSetEnv (wChdir w0 a.data_dir) "SAS_CCF"
            (renderFile fc)) "SAS_ODF" (renderFile fo))
              (pj (pj a.data_dir a.odfid) "work") = true then
            wSetEnv (wSetEnv (wChdir w0 a.data_dir) "SAS_CCF" (renderFile fc))
              "SAS_ODF" (renderFile fo)
          else wMkdir (wSetEnv (wSetEnv (wChdir w0 a.data_dir) "SAS_CCF"
              (renderFile fc)) "SAS_ODF" (renderFile fo))
            (pj (pj a.data_dir a.odfid) "work")).env
          = (wSetEnv (wSetEnv (wChdir w0 a.data_dir) "SAS_CCF" (renderFile fc))
              "SAS_ODF" (renderFile fo)).env := by
        split <;> rfl
      rw [henv]
      simp only [wSetEnv, wGetEnv, wDelEnv]
      rw [if_neg (by decide : ¬ ("SAS_ODF" : String) = "SAS_CCF")]
      rw [wGetEnv_wDelEnv_ne _ "SAS_ODF" "SAS_CCF" (by decide)]
      simp [wGetEnv]
    · have henv : (if dirEx (wSetEnv (wSetEnv (wChdir w0 a.data_dir) "SAS_CCF"
            (renderFile fc)) "SAS_ODF" (renderFile fo))
              (pj (pj a.data_dir a.odfid) "work") = true then
            wSetEnv (wSetEnv (wChdir w0 a.data_dir) "SAS_CCF" (renderFile fc))
              "SAS_ODF" (renderFile fo)
          else wMkdir (wSetEnv (wSetEnv (wChdir w0 a.data_dir) "SAS_CCF"
              (renderFile fc)) "SAS_ODF" (renderFile fo))
            (pj (pj a.data_dir a.odfid) "work")).env
          = (wSetEnv (wSetEnv (wChdir w0 a.data_dir) "SAS_CCF" (renderFile fc))
              "SAS_ODF" (renderFile fo)).env := by
        split <;> rfl
      rw [henv]
      simp [wSetEnv, wGetEnv]
  · intro hex how
    have hex2 : dirEx (wChdir w0 a.data_dir) (pj a.data_dir a.odfid) = true := hex
    simp only [hex2, how, Bool.not_true, Bool.and_false, Bool.false_eq_true,
      if_false, if_true, seqR]
    refine ⟨_, rfl, ?_⟩
    simp only [hlevB, not_true, if_false]
    simp

/-- Witness for C1: a concrete reuse of an existing observation directory
holding a `ccf.cif` and a `*SUM.SAS` file. -/
theorem setodf_reuse_or_download_witness :
    ∃ wf, (setodf orcSilent
        (SetodfArgs.mk "0101" ["data"] "ODF" none none none none none false "esa")
        (World.mk []
          [("LHEASOFT", "/heasoft"), ("SAS_DIR", "/sas"), ("SAS_CCFPATH", "/ccf")]
          [["data"], ["data", "0101"], ["data", "0101", "work"]]
          [FileEnt.mk ["data", "0101", "work"] "ccf.cif" [],
           FileEnt.mk ["data", "0101", "work"] "0101SUM.SAS" ["FOO"]])).1
      = Outcome.ok wf
      ∧ wGetEnv wf.env "SAS_CCF"
          = some (renderFile (FileEnt.mk ["data", "0101", "work"] "ccf.cif" []))
      ∧ wGetEnv wf.env "SAS_ODF"
          = some (renderFile (FileEnt.mk ["data", "0101", "work"] "0101SUM.SAS" ["FOO"]))
      ∧ (setodf orcSilent
          (SetodfArgs.mk "0101" ["data"] "ODF" none none none none none false "esa")
          (World.mk []
            [("LHEASOFT", "/heasoft"), ("SAS_DIR", "/sas"), ("SAS_CCFPATH", "/ccf")]
            [["data"], ["data", "0101"], ["data", "0101", "work"]]
            [FileEnt.mk ["data", "0101", "work"] "ccf.cif" [],
             FileEnt.mk ["data", "0101", "work"] "0101SUM.SAS" ["FOO"]])).2 = [] :=
  (setodf_reuse_or_download orcSilent
      (SetodfArgs.mk "0101" ["data"] "ODF" none none none none none false "esa")
      (World.mk []
        [("LHEASOFT", "/heasoft"), ("SAS_DIR", "/sas"), ("SAS_CCFPATH", "/ccf")]
        [["data"], ["data", "0101"], ["data", "0101", "work"]]
        [FileEnt.mk ["data", "0101", "work"] "ccf.cif" [],
         FileEnt.mk ["data", "0101", "work"] "0101SUM.SAS" ["FOO"]])
      (by decide) (by decide) (by decide) (by decide) rfl rfl
      (Or.inl rfl)).2.1 (by decide) rfl
    (FileEnt.mk ["data", "0101", "work"] "ccf.cif" [])
    (FileEnt.mk ["data", "0101", "work"] "0101SUM.SAS" ["FOO"])
    (FileEnt.mk ["data", "0101", "work"] "0101SUM.SAS" ["FOO"])
    (by decide) (by decide) (by decide) (by decide)
